import Mathlib

/-!
A shallow embedding of the core of the mica scripting-language runtime
(value representation, upvalues, code generation, and the engine facade),
together with theorems about the embedded operations.

Machine integers (`u64`, `u32`, `u16`, `u8`, `Opr24`) are modelled as `Nat`
with explicit bounds where overflow matters.  `f64` values are modelled by
their IEEE-754 bit patterns (a `Nat` below `2 ^ 64`), which is exactly how
the NaN-boxing code in `value/nanbox.rs` manipulates them.  Heap pointers
(`Rc<T>`, `GcRaw<T>`) are modelled as natural-number addresses; the contents
of heap objects are recovered through explicit heap functions passed to the
operations that dereference them.
-/

namespace Mica

/-- The type of a value (`enum ValueKind` shared by both value encodings). -/
inductive ValueKind where
  | Nil
  | Boolean
  | Number
  | String
  | Function
  | Struct
  | Trait
  | List
  | Dict
  | UserData
deriving DecidableEq, Repr

namespace f64

/-- Exponent mask of an IEEE-754 binary64 number (bits 52–62). -/
def EXPONENT_MASK : Nat := (2 ^ 11 - 1) <<< 52

/-- Mantissa mask of an IEEE-754 binary64 number (bits 0–51). -/
def MANTISSA_MASK : Nat := 2 ^ 52 - 1

/-- Magnitude mask: everything except the sign bit (bits 0–62). -/
def MAGNITUDE_MASK : Nat := 2 ^ 63 - 1

/-- Whether the bit pattern denotes an IEEE-754 NaN: exponent all ones and
nonzero mantissa. -/
def is_nan (bits : Nat) : Bool :=
  bits &&& EXPONENT_MASK == EXPONENT_MASK && bits &&& MANTISSA_MASK != 0

/-- IEEE-754 equality of two binary64 numbers, on their bit patterns: NaNs
compare unequal to everything (including themselves), positive and negative
zero compare equal, and any other two numbers compare equal exactly when
their bit patterns coincide.  This is the semantics of Rust's `==` on `f64`,
which the value encodings delegate number comparison to. -/
def eq (a b : Nat) : Bool :=
  if is_nan a || is_nan b then false
  else if a &&& MAGNITUDE_MASK == 0 && b &&& MAGNITUDE_MASK == 0 then true
  else a == b

end f64

/-! ## The NaN-boxed value encoding (`value/nanbox.rs`)

`ValueImpl` is a single 64-bit word, modelled as a `Nat` below `2 ^ 64`.
The associated constants and operations are translated directly from
`impl ValueImpl` and `impl ValueCommon for ValueImpl`. -/

namespace nanbox

/-- `struct ValueImpl(u64)`: the NaN-boxed value, one 64-bit word. -/
structure ValueImpl where
  bits : Nat
deriving DecidableEq, Repr

/-- `0b1111111111111 << 50`: the quiet-NaN mask (13 ones at bits 50–62). -/
def QNAN : Nat := (2 ^ 13 - 1) <<< 50

/-- `1 << 63`: the sign bit, which disambiguates enum values from objects. -/
def SIGN_BIT : Nat := 2 ^ 63

def SIGN_ENUM : Nat := 0

def SIGN_OBJECT : Nat := 1

/-- All 64 bits set; used to model bitwise negation `!x` on `u64`. -/
def U64_ONES : Nat := 2 ^ 64 - 1

/-- `!(SIGN_BIT | QNAN)`: the 50 payload bits (bits 0–49). -/
def PAYLOAD_BITS : Nat := U64_ONES ^^^ (SIGN_BIT ||| QNAN)

def ENUM_NIL : Nat := 1

def ENUM_FALSE : Nat := 2

def ENUM_TRUE : Nat := 3

def OBJECT_STRING : Nat := 0

def OBJECT_FUNCTION : Nat := 1

def OBJECT_STRUCT : Nat := 2

def OBJECT_USER_DATA : Nat := 3

/-- The three least significant bits, holding the object's type tag. -/
def OBJECT_TAG_BITS : Nat := 0b111

/-- `!(SIGN_BIT | QNAN | OBJECT_TAG_BITS)`: the object pointer bits. -/
def OBJECT_POINTER_BITS : Nat := U64_ONES ^^^ (SIGN_BIT ||| QNAN ||| OBJECT_TAG_BITS)

/-- `QNAN | (sign << 63) | payload`. -/
def nan_bits (sign payload : Nat) : Nat := QNAN ||| (sign <<< 63) ||| payload

def enum_nan_bits (payload : Nat) : Nat := nan_bits SIGN_ENUM payload

def NIL_BITS : Nat := enum_nan_bits ENUM_NIL

def FALSE_BITS : Nat := enum_nan_bits ENUM_FALSE

def TRUE_BITS : Nat := enum_nan_bits ENUM_TRUE

/-- `from_float`: a transmute of the float's bits into the value word. -/
def from_float (bits : Nat) : ValueImpl := ⟨bits⟩

def new_nan (sign payload : Nat) : ValueImpl := ⟨nan_bits sign payload⟩

/-- `new_object_nan`: an object word carrying a tagged, 8-byte-aligned
pointer (the pointer obtained from `Rc::into_raw`, hence nonzero). -/
def new_object_nan (tag pointer : Nat) : ValueImpl :=
  new_nan SIGN_OBJECT (pointer ||| tag)

/-- Whether this value is a number (non-NaN, or NaN with a zero payload). -/
def ValueImpl.is_number (v : ValueImpl) : Bool :=
  (v.bits &&& QNAN != QNAN) || (v.bits &&& PAYLOAD_BITS == 0)

/-- Whether the value represents an object. -/
def ValueImpl.is_object (v : ValueImpl) : Bool :=
  (v.bits &&& SIGN_BIT == SIGN_BIT) && !v.is_number

/-- The object tag bits (assumes the value is an object). -/
def ValueImpl.object_tag (v : ValueImpl) : Nat := v.bits &&& OBJECT_TAG_BITS

/-- The object pointer (assumes the value is an object). -/
def ValueImpl.object_pointer (v : ValueImpl) : Nat := v.bits &&& OBJECT_POINTER_BITS

def new_nil : ValueImpl := ⟨NIL_BITS⟩

def new_boolean (b : Bool) : ValueImpl := ⟨if b then TRUE_BITS else FALSE_BITS⟩

def new_number (n : Nat) : ValueImpl := from_float n

def new_string (s : Nat) : ValueImpl := new_object_nan OBJECT_STRING s

def new_function (f : Nat) : ValueImpl := new_object_nan OBJECT_FUNCTION f

def new_struct (s : Nat) : ValueImpl := new_object_nan OBJECT_STRUCT s

def new_user_data (u : Nat) : ValueImpl := new_object_nan OBJECT_USER_DATA u

/-- `kind`: classify the word.  Object tags 4–7 never occur on values built
by the constructors above (the source marks that branch
`unreachable_unchecked`); the model returns `Nil` there. -/
def ValueImpl.kind (v : ValueImpl) : ValueKind :=
  if v.bits = NIL_BITS then .Nil
  else if v.bits = TRUE_BITS ∨ v.bits = FALSE_BITS then .Boolean
  else if v.is_object then
    if v.object_tag = OBJECT_STRING then .String
    else if v.object_tag = OBJECT_FUNCTION then .Function
    else if v.object_tag = OBJECT_STRUCT then .Struct
    else if v.object_tag = OBJECT_USER_DATA then .UserData
    else .Nil
  else .Number

def ValueImpl.get_boolean_unchecked (v : ValueImpl) : Bool :=
  (v.bits &&& PAYLOAD_BITS) - ENUM_FALSE != 0

def ValueImpl.get_number_unchecked (v : ValueImpl) : Nat := v.bits

def ValueImpl.get_string_unchecked (v : ValueImpl) : Nat := v.object_pointer

def ValueImpl.get_function_unchecked (v : ValueImpl) : Nat := v.object_pointer

def ValueImpl.get_struct_unchecked (v : ValueImpl) : Nat := v.object_pointer

def ValueImpl.get_user_data_unchecked (v : ValueImpl) : Nat := v.object_pointer

/-- `impl PartialEq for ValueImpl`.  `heap` gives the contents of the string
object stored at each address (the dereference `as_rc::<String>`). -/
def ValueImpl.eq (heap : Nat → String) (a b : ValueImpl) : Bool :=
  if a.is_number && b.is_number then f64.eq a.bits b.bits
  else if a.is_object && b.is_object && a.object_tag == b.object_tag
      && a.object_tag == OBJECT_STRING then
    heap a.object_pointer == heap b.object_pointer
  else a.bits == b.bits

end nanbox

/-! ## The portable value encoding (`value/impls/portable.rs`)

A discriminated union.  `GcRaw<T>` handles are modelled as natural-number
addresses; dereferencing a handle (`GcRaw::get`) is modelled by heap
functions passed to the operations that need it. -/

/-- Contents of a heap-allocated `String` object (spelled this way because
the constructor names of the portable `ValueImpl` shadow the core type
names inside its namespace). -/
abbrev StringContents := String

/-- Abstract contents of a heap-allocated list object. -/
abbrev ListContents := List Nat

/-- Abstract contents of a heap-allocated dict object. -/
abbrev DictContents := List (Nat × Nat)

namespace portable

/-- `enum ValueImpl`: the portable implementation of values. -/
inductive ValueImpl where
  | Nil
  | False
  | True
  | Number (bits : Nat)
  | String (h : Nat)
  | Function (h : Nat)
  | Struct (h : Nat)
  | Trait (h : Nat)
  | List (h : Nat)
  | Dict (h : Nat)
  | UserData (h : Nat)
deriving DecidableEq, Repr

def new_nil : ValueImpl := .Nil

def new_boolean (b : Bool) : ValueImpl :=
  match b with
  | true => .True
  | false => .False

def new_number (n : Nat) : ValueImpl := .Number n

def new_string (s : Nat) : ValueImpl := .String s

def new_function (f : Nat) : ValueImpl := .Function f

def new_struct (s : Nat) : ValueImpl := .Struct s

def new_trait (t : Nat) : ValueImpl := .Trait t

def new_list (l : Nat) : ValueImpl := .List l

def new_dict (d : Nat) : ValueImpl := .Dict d

def new_user_data (u : Nat) : ValueImpl := .UserData u

def ValueImpl.kind : ValueImpl → ValueKind
  | .Nil => .Nil
  | .False | .True => .Boolean
  | .Number _ => .Number
  | .String _ => .String
  | .Function _ => .Function
  | .Struct _ => .Struct
  | .Trait _ => .Trait
  | .List _ => .List
  | .Dict _ => .Dict
  | .UserData _ => .UserData

/-- `get_boolean_unchecked`; the catch-all branch is `unreachable_unchecked`
in the source and never hit on boolean values. -/
def ValueImpl.get_boolean_unchecked : ValueImpl → Bool
  | .True => true
  | .False => false
  | _ => false

/-- `get_number_unchecked`; the catch-all branch is `unreachable_unchecked`. -/
def ValueImpl.get_number_unchecked : ValueImpl → Nat
  | .Number x => x
  | _ => 0

/-- `get_raw_string_unchecked`; the catch-all branch is
`unreachable_unchecked`. -/
def ValueImpl.get_raw_string_unchecked : ValueImpl → Nat
  | .String s => s
  | _ => 0

/-- `get_raw_function_unchecked`; the catch-all branch is
`unreachable_unchecked`. -/
def ValueImpl.get_raw_function_unchecked : ValueImpl → Nat
  | .Function f => f
  | _ => 0

/-- `get_raw_struct_unchecked`; the catch-all branch is
`unreachable_unchecked`. -/
def ValueImpl.get_raw_struct_unchecked : ValueImpl → Nat
  | .Struct s => s
  | _ => 0

/-- `get_raw_user_data_unchecked`; the catch-all branch is
`unreachable_unchecked`. -/
def ValueImpl.get_raw_user_data_unchecked : ValueImpl → Nat
  | .UserData u => u
  | _ => 0

/-- `mem::discriminant`, modelled as the constructor index. -/
def ValueImpl.discriminant : ValueImpl → Nat
  | .Nil => 0
  | .False => 1
  | .True => 2
  | .Number _ => 3
  | .String _ => 4
  | .Function _ => 5
  | .Struct _ => 6
  | .Trait _ => 7
  | .List _ => 8
  | .Dict _ => 9
  | .UserData _ => 10

/-- `impl PartialEq for ValueImpl` (the `mica-language` portable encoding).

`heapStr` gives the contents of the string object at each address
(`GcRaw::get` on a `GcRaw<String>`).  List and dict contents
(`Vec<RawValue>` and the dict storage) are modelled as abstract element
tokens via `heapList` and `heapDict`; no theorem below depends on the
structure of list or dict contents.  For `Function` and `Struct` the source
compares the `GcRaw` handles themselves — modelled from the spec: closures
and structs compare by identity (handle equality), i.e. equality of the
addresses.  Every remaining pair (including two `UserData` or two `Trait`
values) falls through to `mem::discriminant` comparison. -/
def ValueImpl.eq (heapStr : Nat → StringContents) (heapList : Nat → ListContents)
    (heapDict : Nat → DictContents) : ValueImpl → ValueImpl → Bool
  | .Number l, .Number r => f64.eq l r
  | .String l, .String r => heapStr l == heapStr r
  | .Function l, .Function r => l == r
  | .List l, .List r => heapList l == heapList r
  | .Dict l, .Dict r => heapDict l == heapDict r
  | .Struct l, .Struct r => l == r
  | a, b => a.discriminant == b.discriminant

end portable

/-! ## Values and upvalues (`value.rs`)

The `Value` enum of `value.rs` (nil, booleans, numbers, strings and
functions), together with the pinned `Upvalue` cell. -/

/-- `enum Value`.  `Rc<str>` strings compare by contents, so the model
carries the string contents directly; `Rc<Closure>` functions compare by
`Rc::ptr_eq`, so the model carries the heap address. -/
inductive Value where
  | Nil
  | False
  | True
  | Number (bits : Nat)
  | String (s : String)
  | Function (h : Nat)
deriving DecidableEq, Repr

/-- `Value::is_truthy`: all values except `Nil` and `False` are truthy. -/
def Value.is_truthy (v : Value) : Bool :=
  !(match v with
    | .Nil | .False => true
    | _ => false)

/-- `Value::is_falsy`: the only falsy values are `Nil` and `False`. -/
def Value.is_falsy (v : Value) : Bool := !v.is_truthy

/-- Where an upvalue's `ptr` field currently points: at a live stack slot,
or at the upvalue's own `closed` storage. -/
inductive UpvaluePtr where
  | stack (slot : Nat)
  | closed
deriving DecidableEq, Repr

/-- `struct Upvalue`: a writable pointer to the captured variable, plus
storage for a closed upvalue.  The `closed` field is `MaybeUninit` in the
source; `none` models the uninitialized state.  The VM stack that open
upvalues point into is modelled as a function from slots to values. -/
structure Upvalue where
  ptr : UpvaluePtr
  closed : Option Value
deriving DecidableEq, Repr

/-- `Upvalue::new`: a new upvalue pointing to a live variable. -/
def Upvalue.new (slot : Nat) : Upvalue := ⟨.stack slot, none⟩

/-- `Upvalue::get`: read the value behind `ptr`.  The `closed` storage is
only ever pointed to after `close` initializes it, so the uninitialized
read (modelled with `Value.Nil`) never happens. -/
def Upvalue.get (u : Upvalue) (stack : Nat → Value) : Value :=
  match u.ptr with
  | .stack s => stack s
  | .closed => u.closed.getD .Nil

/-- `Upvalue::set`: write through `ptr`, either into the live stack slot or
into the upvalue's own storage. -/
def Upvalue.set (u : Upvalue) (stack : Nat → Value) (v : Value) :
    Upvalue × (Nat → Value) :=
  match u.ptr with
  | .stack s => (u, Function.update stack s v)
  | .closed => ({ u with closed := some v }, stack)

/-- `Upvalue::close`: `mem::take` the value behind `ptr` (leaving
`Value::default()`, i.e. `Nil`, behind), write it into the `closed`
storage, and retarget `ptr` at that storage. -/
def Upvalue.close (u : Upvalue) (stack : Nat → Value) :
    Upvalue × (Nat → Value) :=
  match u.ptr with
  | .stack s => (⟨.closed, some (stack s)⟩, Function.update stack s .Nil)
  | .closed => (⟨.closed, some (u.closed.getD .Nil)⟩, stack)

/-! ## Code generation (`codegen.rs`)

The code generator is embedded whole.  `Chunk`, `Opcode`, `Environment` and
the AST live in `bytecode.rs` / `ast.rs`, which are not among the embedded
sources; those parts are modelled from the spec (each carries a note).
Source locations (`ast.error` attaches one to each `ErrorKind`) are
omitted: errors are represented by their kind alone. -/

namespace codegen

/-- The error kinds produced by the embedded code generator and engine
(`ErrorKind` lives in `common.rs`; the constructors are the ones this
development constructs). -/
inductive ErrorKind where
  | TooManyLocals
  | TooManyCaptures
  | TooManyGlobals
  | TooManyFunctions
  | TooManyParameters
  | TooManyArguments
  | TooManyMethods
  | VariableDoesNotExist (name : String)
  | InvalidAssignment
  | BreakOutsideOfLoop
  | IfBranchTooLarge
  | IfExpressionTooLarge
  | OperatorRhsTooLarge
  | LoopTooLarge
  | JumpTooLarge
deriving DecidableEq, Repr

/-- The outcome of a fallible, possibly-panicking Rust computation:
`Ok`, `Err`, or a panic (`unwrap` failure, `unreachable!`, `todo!`).  A
panic aborts the whole computation, so it carries no state. -/
inductive Fallible (ε : Type) (α : Type) where
  | ok (a : α)
  | err (e : ε)
  | panicked
deriving DecidableEq, Repr

def Fallible.bind {ε α β : Type} : Fallible ε α → (α → Fallible ε β) → Fallible ε β
  | .ok a, f => f a
  | .err e, _ => .err e
  | .panicked, _ => .panicked

instance {ε : Type} : Monad (Fallible ε) where
  pure := Fallible.ok
  bind := Fallible.bind

/-- Modelled from the spec: `enum Opcode` lives in `bytecode.rs`, which is
not among the embedded sources; the constructors are the ones the code
generator and engine emit (§3 "Opcode").  The chunk is modelled as a list
of instructions, so an offset is an index into that list; the inline
`PushNumber`/`PushString` payloads (pushed separately in the byte-oriented
source) are carried on the instruction itself, and the packed
`(method_index, argc)` operand of `CallMethod` is carried unpacked.  Jump
instructions carry the Opr24-encoded relative offset computed by
`Opcode::jump_forward` and friends. -/
inductive Opcode where
  | Nop
  | PushNil
  | PushTrue
  | PushFalse
  | PushNumber (bits : Nat)
  | PushString (s : String)
  | GetGlobal (slot : Nat)
  | AssignGlobal (slot : Nat)
  | GetLocal (slot : Nat)
  | AssignLocal (slot : Nat)
  | GetUpvalue (index : Nat)
  | AssignUpvalue (index : Nat)
  | Discard
  | Swap
  | Negate
  | Not
  | Add
  | Subtract
  | Multiply
  | Divide
  | Equal
  | Less
  | LessEqual
  | Call (argc : Nat)
  | CallMethod (method_id : Nat) (argc : Nat)
  | CreateClosure (function_id : Nat)
  | Return
  | Halt
  | JumpForward (delta : Nat)
  | JumpForwardIfFalsy (delta : Nat)
  | JumpForwardIfTruthy (delta : Nat)
  | JumpBackward (delta : Nat)
  | EnterBreakableBlock
  | ExitBreakableBlock (depth : Nat)
deriving DecidableEq, Repr

/-- Modelled from the spec: `Opcode::jump_forward(from, to)` encodes the
relative offset `to - from` as an `Opr24`, failing when it does not fit. -/
def Opcode.jump_forward (fr to' : Nat) : Option Opcode :=
  if to' - fr < 2 ^ 24 then some (.JumpForward (to' - fr)) else none

/-- Modelled from the spec: as `jump_forward`, for the falsy-conditional
jump. -/
def Opcode.jump_forward_if_falsy (fr to' : Nat) : Option Opcode :=
  if to' - fr < 2 ^ 24 then some (.JumpForwardIfFalsy (to' - fr)) else none

/-- Modelled from the spec: as `jump_forward`, for the truthy-conditional
jump. -/
def Opcode.jump_forward_if_truthy (fr to' : Nat) : Option Opcode :=
  if to' - fr < 2 ^ 24 then some (.JumpForwardIfTruthy (to' - fr)) else none

/-- Modelled from the spec: `Opcode::jump_backward(from, to)` encodes the
backward distance `from - to`. -/
def Opcode.jump_backward (fr to' : Nat) : Option Opcode :=
  if fr - to' < 2 ^ 24 then some (.JumpBackward (fr - to')) else none

/-- `Chunk`, modelled as the list of emitted instructions plus the
`preallocate_stack_slots` hint.  The module name and the per-instruction
source-location table are omitted; offsets are indices into `code`. -/
structure Chunk where
  code : List Opcode
  preallocate_stack_slots : Nat
deriving DecidableEq, Repr

def Chunk.new : Chunk := ⟨[], 0⟩

def Chunk.len (c : Chunk) : Nat := c.code.length

/-- `Chunk::push`: append an instruction, returning its offset. -/
def Chunk.push (c : Chunk) (op : Opcode) : Chunk × Nat :=
  ({ c with code := c.code ++ [op] }, c.code.length)

/-- `Chunk::patch`: overwrite the instruction at a previously reserved
offset (the reserved `Nop` and its replacement have the same width, so the
chunk length never changes). -/
def Chunk.patch (c : Chunk) (offset : Nat) (op : Opcode) : Chunk :=
  { c with code := c.code.set offset op }

/-- `MethodSignature` (`bytecode.rs`): method name, receiver-inclusive
arity (`None` means variadic), and the trait the method belongs to. -/
structure MethodSignature where
  name : String
  arity : Option Nat
  trait_id : Option Nat
deriving DecidableEq, Repr

/-- `FunctionKind` (`bytecode.rs`): bytecode with its chunk and the set of
parent stack slots the function captures, or a foreign function (which the
code generator never constructs). -/
inductive FunctionKind where
  | Bytecode (chunk : Chunk) (captured_locals : List Nat)
  | Foreign
deriving DecidableEq, Repr

/-- `Function` (`bytecode.rs`), as constructed by
`CodeGenerator::generate_function`. -/
structure Function where
  name : String
  parameter_count : Option Nat
  kind : FunctionKind
deriving DecidableEq, Repr

/-- Modelled from the spec: `Environment` (`bytecode.rs` is not among the
embedded sources) holds the globals vector, the function vector and the
method-signature interning table; `create_global`, `create_function` fail
with a `TooMany*` kind when an `Opr24` overflows, and method indices are
16-bit (§3 "Environment", §4.4). -/
structure Environment where
  globals : List String
  functions : List Function
  method_signatures : List MethodSignature
deriving DecidableEq, Repr

def Environment.new : Environment := ⟨[], [], []⟩

def Environment.create_global (env : Environment) (name : String) :
    Fallible ErrorKind (Nat × Environment) :=
  if env.globals.length < 2 ^ 24 then
    .ok (env.globals.length, { env with globals := env.globals ++ [name] })
  else .err .TooManyGlobals

def Environment.get_global (env : Environment) (name : String) : Option Nat :=
  env.globals.findIdx? (fun g => g == name)

def Environment.create_function (env : Environment) (f : Function) :
    Fallible ErrorKind (Nat × Environment) :=
  if env.functions.length < 2 ^ 24 then
    .ok (env.functions.length, { env with functions := env.functions ++ [f] })
  else .err .TooManyFunctions

/-- Modelled from the spec: `get_or_create_method_index` interns a
signature — the same signature maps to the same index, a fresh one is
appended — failing with `TooManyMethods` when the 16-bit index space is
exhausted. -/
def Environment.get_or_create_method_index (env : Environment)
    (sig : MethodSignature) : Fallible ErrorKind (Nat × Environment) :=
  match env.method_signatures.findIdx? (fun s => s == sig) with
  | some i => .ok (i, env)
  | none =>
    if env.method_signatures.length < 2 ^ 16 then
      .ok (env.method_signatures.length,
        { env with method_signatures := env.method_signatures ++ [sig] })
    else .err .TooManyMethods

def Environment.get_method_signature (env : Environment) (i : Nat) :
    Option MethodSignature :=
  env.method_signatures.get? i

/-- `HashMap::insert` on the association-list model of a hash map: replace
the binding if the key is present, append it otherwise (keys stay
distinct). -/
def Assoc.insert {α β : Type} [BEq α] (m : List (α × β)) (k : α) (v : β) :
    List (α × β) :=
  if m.any (fun e => e.1 == k) then m.map (fun e => if e.1 == k then (k, v) else e)
  else m ++ [(k, v)]

/-- `HashMap::get` on the association-list model. -/
def Assoc.get? {α β : Type} [BEq α] (m : List (α × β)) (k : α) : Option β :=
  (m.find? (fun e => e.1 == k)).map (fun e => e.2)

/-- The kind of a variable allocation. -/
inductive VariableAllocation where
  | Inherit
  | Allocate
deriving DecidableEq, Repr

/-- `struct Variable`. -/
structure Variable where
  stack_slot : Nat
  allocation : VariableAllocation
deriving DecidableEq, Repr

/-- `struct Scope`: the mapping from variable names to stack slots, plus
the number of `Allocate`d variables in the scope. -/
structure Scope where
  vars : List (String × Variable)
  allocated_variable_count : Nat
deriving DecidableEq, Repr

def Scope.default : Scope := ⟨[], 0⟩

/-- `enum VariablePlace`. -/
inductive VariablePlace where
  | Global (slot : Nat)
  | Local (slot : Nat)
  | Upvalue (index : Nat)
deriving DecidableEq, Repr

/-- `struct BreakableBlock`: offsets of the `break` jumps to backpatch,
and the offset of the reserved `Nop` at the block's start. -/
structure BreakableBlock where
  breaks : List Nat
  start : Nat
deriving DecidableEq, Repr

/-- `struct Locals`: the scope stack of one function being compiled, with
an optional parent for the enclosing function.  The list head of `scopes`
is the innermost scope (the top of the source's `Vec`). -/
inductive Locals where
  | mk (parent : Option Locals) (scopes : List Scope) (local_count : Nat)
      (allocated_local_count : Nat) (captured_locals : List Nat)
      (captured_upvalues : List Nat) (upvalue_indices : List (Nat × Nat))

def Locals.default : Locals := .mk none [] 0 0 [] [] []

def Locals.parent : Locals → Option Locals
  | .mk p _ _ _ _ _ _ => p

def Locals.scopes : Locals → List Scope
  | .mk _ s _ _ _ _ _ => s

def Locals.local_count : Locals → Nat
  | .mk _ _ lc _ _ _ _ => lc

def Locals.allocated_local_count : Locals → Nat
  | .mk _ _ _ alc _ _ _ => alc

def Locals.captured_locals : Locals → List Nat
  | .mk _ _ _ _ cl _ _ => cl

def Locals.captured_upvalues : Locals → List Nat
  | .mk _ _ _ _ _ cu _ => cu

def Locals.upvalue_indices : Locals → List (Nat × Nat)
  | .mk _ _ _ _ _ _ ui => ui

/-- `Locals::create_local`: allocate the next stack slot for `name` in the
innermost scope (`scopes.last_mut().unwrap()` — a panic when no scope is
on the stack). -/
def Locals.create_local (l : Locals) (name : String)
    (allocation : VariableAllocation) :
    Fallible ErrorKind (VariablePlace × Locals) :=
  match l with
  | .mk parent scopes local_count alc cl cu ui =>
    let slot := local_count
    if slot < 2 ^ 24 then
      match scopes with
      | [] => .panicked
      | scope :: rest =>
        let scope' : Scope :=
          { scope with
            vars := Assoc.insert scope.vars name ⟨slot, allocation⟩ }
        let scope' :=
          if allocation = .Allocate then
            { scope' with allocated_variable_count := scope'.allocated_variable_count + 1 }
          else scope'
        let alc' := if allocation = .Allocate then alc + 1 else alc
        .ok (.Local slot, .mk parent (scope' :: rest) (local_count + 1) alc' cl cu ui)
    else .err .TooManyLocals

/-- The innermost-first scope walk of `Locals::lookup` (the source iterates
`scopes.iter().rev()`; the model's list head is the innermost scope). -/
def scope_lookup : List Scope → String → Option Nat
  | [], _ => none
  | scope :: rest, name =>
    match Assoc.get? scope.vars name with
    | some var => some var.stack_slot
    | none => scope_lookup rest name

/-- `Locals::close_over`: assign the next upvalue index to a parent local
slot being closed over. -/
def Locals.close_over (l : Locals) (slot : Nat) :
    Fallible ErrorKind (Nat × Locals) :=
  match l with
  | .mk parent scopes lc alc cl cu ui =>
    let index := ui.length
    if index < 2 ^ 24 then
      .ok (index, .mk parent scopes lc alc cl cu (Assoc.insert ui slot index))
    else .err .TooManyCaptures

/-- `HashSet::insert` on the list model of a set. -/
def set_insert (s : List Nat) (x : Nat) : List Nat :=
  if s.contains x then s else s ++ [x]

/-- `Locals::lookup`: resolve a name against the innermost scopes; on a
miss, recurse into the parent, closing over a parent local
(`VariablePlace::Upvalue(_)` from the parent is `todo!()` — a panic —
and `Global` is `unreachable!`). -/
def Locals.lookup (l : Locals) (name : String) :
    Fallible ErrorKind (Option VariablePlace × Locals) :=
  match l with
  | .mk parent scopes lc alc cl cu ui =>
    match scope_lookup scopes name with
    | some slot => .ok (some (.Local slot), .mk parent scopes lc alc cl cu ui)
    | none =>
      match parent with
      | none => .ok (none, .mk none scopes lc alc cl cu ui)
      | some p =>
        match Locals.lookup p name with
        | .err e => .err e
        | .panicked => .panicked
        | .ok (none, p') => .ok (none, .mk (some p') scopes lc alc cl cu ui)
        | .ok (some place, p') =>
          match place with
          | .Local local_slot =>
            match Locals.close_over p' local_slot with
            | .err e => .err e
            | .panicked => .panicked
            | .ok (upvalue_slot, p'') =>
              .ok (some (.Upvalue upvalue_slot),
                .mk (some p'') scopes lc alc (set_insert cl upvalue_slot) cu ui)
          | .Upvalue _ => .panicked
          | .Global _ => .panicked

/-- `Locals::push_scope`. -/
def Locals.push_scope (l : Locals) : Locals :=
  match l with
  | .mk parent scopes lc alc cl cu ui =>
    .mk parent (Scope.default :: scopes) lc alc cl cu ui

/-- `Locals::pop_scope` (a panic when no scope is left on the stack). -/
def Locals.pop_scope (l : Locals) : Fallible ErrorKind (Scope × Locals) :=
  match l with
  | .mk _ [] _ _ _ _ _ => .panicked
  | .mk parent (scope :: rest) lc alc cl cu ui =>
    .ok (scope,
      .mk parent rest (lc - scope.vars.length)
        (alc - scope.allocated_variable_count) cl cu ui)

/-- `struct CodeGenerator`: the environment (a `&mut` in the source, so it
is threaded through), the chunk being emitted, the locals of the function
being compiled, and the stack of breakable blocks (list head = innermost
block, the top of the source's `Vec`). -/
structure CodeGenerator where
  env : Environment
  chunk : Chunk
  locals : Locals
  breakable_blocks : List BreakableBlock

/-- `CodeGenerator::new`. -/
def CodeGenerator.new (env : Environment) : CodeGenerator :=
  ⟨env, Chunk.new, Locals.default, []⟩

/-- Push one opcode onto the generator's chunk, returning its offset. -/
def CodeGenerator.push_op (g : CodeGenerator) (op : Opcode) :
    CodeGenerator × Nat :=
  let (chunk, offset) := g.chunk.push op
  ({ g with chunk := chunk }, offset)

/-- `CodeGenerator::create_variable`: a local when a scope is on the stack,
a global otherwise. -/
def CodeGenerator.create_variable (g : CodeGenerator) (name : String)
    (allocation : VariableAllocation) :
    Fallible ErrorKind (VariablePlace × CodeGenerator) :=
  if g.locals.scopes.isEmpty then
    match g.env.create_global name with
    | .ok (slot, env) => .ok (.Global slot, { g with env := env })
    | .err e => .err e
    | .panicked => .panicked
  else
    match g.locals.create_local name allocation with
    | .ok (place, locals) =>
      let chunk :=
        { g.chunk with
          preallocate_stack_slots :=
            max g.chunk.preallocate_stack_slots locals.allocated_local_count }
      .ok (place, { g with locals := locals, chunk := chunk })
    | .err e => .err e
    | .panicked => .panicked

/-- `CodeGenerator::lookup_variable`: locals (and upvalue capture) first,
then the globals of the environment. -/
def CodeGenerator.lookup_variable (g : CodeGenerator) (name : String) :
    Fallible ErrorKind (Option VariablePlace × CodeGenerator) :=
  match g.locals.lookup name with
  | .ok (some place, locals) => .ok (some place, { g with locals := locals })
  | .ok (none, locals) =>
    .ok ((g.env.get_global name).map .Global, { g with locals := locals })
  | .err e => .err e
  | .panicked => .panicked

/-- `CodeGenerator::push_scope`. -/
def CodeGenerator.push_scope (g : CodeGenerator) : CodeGenerator :=
  { g with locals := g.locals.push_scope }

/-- `CodeGenerator::pop_scope` (discards the popped scope). -/
def CodeGenerator.pop_scope (g : CodeGenerator) :
    Fallible ErrorKind CodeGenerator :=
  match g.locals.pop_scope with
  | .ok (_, locals) => .ok { g with locals := locals }
  | .err e => .err e
  | .panicked => .panicked

/-- `CodeGenerator::generate_variable_load`. -/
def CodeGenerator.generate_variable_load (g : CodeGenerator)
    (place : VariablePlace) : CodeGenerator :=
  (g.push_op (match place with
    | .Global slot => .GetGlobal slot
    | .Local slot => .GetLocal slot
    | .Upvalue slot => .GetUpvalue slot)).1

/-- `CodeGenerator::generate_variable_assign`. -/
def CodeGenerator.generate_variable_assign (g : CodeGenerator)
    (place : VariablePlace) : CodeGenerator :=
  (g.push_op (match place with
    | .Global slot => .AssignGlobal slot
    | .Local slot => .AssignLocal slot
    | .Upvalue slot => .AssignUpvalue slot)).1

/-- `CodeGenerator::push_breakable_block`: reserve a `Nop` at the block's
start and push the block. -/
def CodeGenerator.push_breakable_block (g : CodeGenerator) : CodeGenerator :=
  let (g, start) := g.push_op .Nop
  { g with breakable_blocks := ⟨[], start⟩ :: g.breakable_blocks }

/-- The backpatching loop of `pop_breakable_block` and `generate_if`:
patch every recorded offset with a forward jump to `c.len` (which `patch`
leaves unchanged); `none` models a jump that does not fit. -/
def patch_forward_jumps (c : Chunk) : List Nat → Option Chunk
  | [] => some c
  | jump :: rest =>
    match Opcode.jump_forward jump c.len with
    | none => none
    | some op => patch_forward_jumps (c.patch jump op) rest

/-- `CodeGenerator::pop_breakable_block` (the pop `unwrap`s — popping with
no block open is a panic — and so does a break jump that does not fit; the
source relies on the loop having already failed in that case). -/
def CodeGenerator.pop_breakable_block (g : CodeGenerator) :
    Fallible ErrorKind CodeGenerator :=
  match g.breakable_blocks with
  | [] => .panicked
  | block :: rest =>
    let g := { g with breakable_blocks := rest }
    if block.breaks.isEmpty then .ok g
    else
      let g := { g with chunk := g.chunk.patch block.start .EnterBreakableBlock }
      match patch_forward_jumps g.chunk block.breaks with
      | none => .panicked
      | some chunk => .ok { g with chunk := (chunk.push (.ExitBreakableBlock 1)).1 }

/-- `NodeKind` (from `ast.rs`, which is not among the embedded sources; the
kinds are exactly the ones `generate_node` dispatches on). -/
inductive NodeKind where
  | Empty
  | Nil
  | False
  | True
  | Number
  | String
  | Identifier
  | Negate
  | Not
  | Add
  | Subtract
  | Multiply
  | Divide
  | Equal
  | NotEqual
  | Less
  | Greater
  | LessEqual
  | GreaterEqual
  | And
  | Or
  | Assign
  | Main
  | Do
  | If
  | IfBranch
  | ElseBranch
  | While
  | Break
  | Func
  | Call
  | Return
  | Parameters
deriving DecidableEq, Repr

/-- Modelled from the spec: the AST (`ast.rs` is not among the embedded
sources) is "an already-built AST of typed node ids with child arrays,
string literals, and number literals".  The arena of node ids is modelled
as a tree: `pair` holds the two inline child slots read by
`Ast::node_pair` and `children` the child array read by `Ast::children`;
`str` and `num` are the string/number payloads of `Ast::string` /
`Ast::number`.  Source locations are omitted.  A missing `pair` entry
stands for the `Empty` node, which `generate_node` refuses with a panic
("empty nodes must never be generated"); the generator functions below
short-circuit to the same panicked outcome. -/
inductive Node where
  | mk (kind : NodeKind) (str : Option String) (num : Option Nat)
      (pair : List Node) (children : List Node)

def Node.kind : Node → NodeKind
  | .mk k _ _ _ _ => k

def Node.str : Node → Option String
  | .mk _ s _ _ _ => s

def Node.num : Node → Option Nat
  | .mk _ _ n _ _ => n

def Node.pair : Node → List Node
  | .mk _ _ _ p _ => p

def Node.children : Node → List Node
  | .mk _ _ _ _ c => c

/-- `CodeGenerator::generate_nil`. -/
def CodeGenerator.generate_nil (g : CodeGenerator) : CodeGenerator :=
  (g.push_op .PushNil).1

/-- `CodeGenerator::generate_boolean` (`unreachable!` on other kinds). -/
def CodeGenerator.generate_boolean (g : CodeGenerator) (node : Node) :
    Fallible ErrorKind CodeGenerator :=
  match node.kind with
  | .True => .ok (g.push_op .PushTrue).1
  | .False => .ok (g.push_op .PushFalse).1
  | _ => .panicked

/-- `CodeGenerator::generate_number` (`ast.number(node).unwrap()`). -/
def CodeGenerator.generate_number (g : CodeGenerator) (node : Node) :
    Fallible ErrorKind CodeGenerator :=
  match node.num with
  | some n => .ok (g.push_op (.PushNumber n)).1
  | none => .panicked

/-- `CodeGenerator::generate_string` (`ast.string(node).unwrap()`). -/
def CodeGenerator.generate_string (g : CodeGenerator) (node : Node) :
    Fallible ErrorKind CodeGenerator :=
  match node.str with
  | some s => .ok (g.push_op (.PushString s)).1
  | none => .panicked

/-- `CodeGenerator::generate_variable`: look the name up and emit a load;
`VariableDoesNotExist` when the name resolves nowhere. -/
def CodeGenerator.generate_variable (g : CodeGenerator) (node : Node) :
    Fallible ErrorKind CodeGenerator :=
  match node.str with
  | none => .panicked
  | some name =>
    match g.lookup_variable name with
    | .ok (some place, g) => .ok (g.generate_variable_load place)
    | .ok (none, _) => .err (.VariableDoesNotExist name)
    | .err e => .err e
    | .panicked => .panicked

/-- The parameter-creation loop of `generate_function`: each parameter is
created with `VariableAllocation::Inherit`
(`ast.string(parameter).unwrap()`). -/
def CodeGenerator.create_parameters (g : CodeGenerator) :
    List Node → Fallible ErrorKind CodeGenerator
  | [] => .ok g
  | p :: rest =>
    match p.str with
    | none => .panicked
    | some parameter_name =>
      match g.create_variable parameter_name .Inherit with
      | .ok (_, g) => g.create_parameters rest
      | .err e => .err e
      | .panicked => .panicked

mutual

/-- `CodeGenerator::generate_node_list`: each node but the last is followed
by a `Discard`; an empty list is a `nil` literal. -/
def CodeGenerator.generate_node_list (g : CodeGenerator) :
    List Node → Fallible ErrorKind CodeGenerator
  | [] => .ok g.generate_nil
  | [n] => CodeGenerator.generate_node g n
  | n :: rest => do
    let g ← CodeGenerator.generate_node g n
    CodeGenerator.generate_node_list (g.push_op .Discard).1 rest
termination_by nodes => (sizeOf nodes, 0)

/-- `CodeGenerator::generate_unary` (`node_pair(node).0` is the operand). -/
def CodeGenerator.generate_unary (g : CodeGenerator) :
    Node → Fallible ErrorKind CodeGenerator
  | .mk kind _str _num (left :: _ptail) _children => do
    let g ← CodeGenerator.generate_node g left
    match kind with
    | .Negate => .ok (g.push_op .Negate).1
    | .Not => .ok (g.push_op .Not).1
    | _ => .panicked
  | _ => .panicked
termination_by node => (sizeOf node, 0)

/-- `CodeGenerator::generate_binary`: left operand, right operand, operator
(`NotEqual` is `Equal` + `Not`; `Greater`/`GreaterEqual` swap operands). -/
def CodeGenerator.generate_binary (g : CodeGenerator) :
    Node → Fallible ErrorKind CodeGenerator
  | .mk kind _str _num (left :: ptail) _children => do
    let g ← CodeGenerator.generate_node g left
    match ptail with
    | right :: _ => do
      let g ← CodeGenerator.generate_node g right
      match kind with
      | .Negate => .ok (g.push_op .Negate).1
      | .Add => .ok (g.push_op .Add).1
      | .Subtract => .ok (g.push_op .Subtract).1
      | .Multiply => .ok (g.push_op .Multiply).1
      | .Divide => .ok (g.push_op .Divide).1
      | .Equal => .ok (g.push_op .Equal).1
      | .NotEqual => .ok (((g.push_op .Equal).1).push_op .Not).1
      | .Less => .ok (g.push_op .Less).1
      | .LessEqual => .ok (g.push_op .LessEqual).1
      | .Greater => .ok (((g.push_op .Swap).1).push_op .Less).1
      | .GreaterEqual => .ok (((g.push_op .Swap).1).push_op .LessEqual).1
      | _ => .panicked
    | [] => .panicked
  | _ => .panicked
termination_by node => (sizeOf node, 0)

/-- `CodeGenerator::generate_assignment`: generate the value, then assign
to the target (only `Identifier` targets are valid; an unknown name
creates the variable). -/
def CodeGenerator.generate_assignment (g : CodeGenerator) :
    Node → Fallible ErrorKind CodeGenerator
  | .mk _kind _str _num (target :: ptail) _children =>
    match ptail with
    | value :: _ => do
      let g ← CodeGenerator.generate_node g value
      match target.kind with
      | .Identifier =>
        match target.str with
        | none => .panicked
        | some name =>
          match g.lookup_variable name with
          | .ok (some place, g) => .ok (g.generate_variable_assign place)
          | .ok (none, g) =>
            match g.create_variable name .Allocate with
            | .ok (place, g) => .ok (g.generate_variable_assign place)
            | .err e => .err e
            | .panicked => .panicked
          | .err e => .err e
          | .panicked => .panicked
      | _ => .err .InvalidAssignment
    | [] => .panicked
  | _ => .panicked
termination_by node => (sizeOf node, 0)

/-- `CodeGenerator::generate_do`: a scope around the node list. -/
def CodeGenerator.generate_do (g : CodeGenerator) :
    Node → Fallible ErrorKind CodeGenerator
  | .mk _kind _str _num _pair children => do
    let g := g.push_scope
    let g ← CodeGenerator.generate_node_list g children
    g.pop_scope
termination_by node => (sizeOf node, 0)

/-- The branch loop of `CodeGenerator::generate_if`: each branch after the
first discards the previous branch's condition; `IfBranch` reserves a
`Nop` backpatched to a falsy-conditional jump over the branch body, and
records a `Nop` to later jump to the end; `ElseBranch` is just a scoped
body.  Returns the offsets to backpatch with jumps to the end. -/
def CodeGenerator.generate_if_branches (g : CodeGenerator) (branches : List Node)
    (first : Bool) (jumps_to_end : List Nat) :
    Fallible ErrorKind (CodeGenerator × List Nat) :=
  match branches with
  | [] => .ok (g, jumps_to_end)
  | branch :: rest =>
    let g := if first then g else (g.push_op .Discard).1
    match branch with
    | .mk kind _str _num pair children =>
      match kind with
      | .IfBranch =>
        match pair with
        | condition :: _ => do
          let g := g.push_scope
          let g ← CodeGenerator.generate_node g condition
          let (g, jump) := g.push_op .Nop
          let g := (g.push_op .Discard).1
          let g ← CodeGenerator.generate_node_list g children
          let g ← g.pop_scope
          let (g, jump_to_end) := g.push_op .Nop
          match Opcode.jump_forward_if_falsy jump g.chunk.len with
          | some op =>
            CodeGenerator.generate_if_branches
              { g with chunk := g.chunk.patch jump op } rest false
              (jumps_to_end ++ [jump_to_end])
          | none => .err .IfBranchTooLarge
        | [] => .panicked
      | .ElseBranch => do
        let g := g.push_scope
        let g ← CodeGenerator.generate_node_list g children
        let g ← g.pop_scope
        CodeGenerator.generate_if_branches g rest false jumps_to_end
      | _ => .panicked
termination_by (sizeOf branches, 0)

/-- `CodeGenerator::generate_if`: generate the branches, then backpatch
every jump-to-end with an unconditional forward jump. -/
def CodeGenerator.generate_if (g : CodeGenerator) :
    Node → Fallible ErrorKind CodeGenerator
  | .mk _kind _str _num _pair branches => do
    let (g, jumps) ← CodeGenerator.generate_if_branches g branches true []
    match patch_forward_jumps g.chunk jumps with
    | some chunk => .ok { g with chunk := chunk }
    | none => .err .IfExpressionTooLarge
termination_by node => (sizeOf node, 1)

/-- `CodeGenerator::generate_and`: short-circuit with a falsy-conditional
jump over the right operand (discarding the left one first). -/
def CodeGenerator.generate_and (g : CodeGenerator) :
    Node → Fallible ErrorKind CodeGenerator
  | .mk _kind _str _num (left :: ptail) _children => do
    let g ← CodeGenerator.generate_node g left
    match ptail with
    | right :: _ => do
      let (g, jump_past_right) := g.push_op .Nop
      let g := (g.push_op .Discard).1
      let g ← CodeGenerator.generate_node g right
      match Opcode.jump_forward_if_falsy jump_past_right g.chunk.len with
      | some op => .ok { g with chunk := g.chunk.patch jump_past_right op }
      | none => .err .OperatorRhsTooLarge
    | [] => .panicked
  | _ => .panicked
termination_by node => (sizeOf node, 0)

/-- `CodeGenerator::generate_or`: as `generate_and`, with a
truthy-conditional jump. -/
def CodeGenerator.generate_or (g : CodeGenerator) :
    Node → Fallible ErrorKind CodeGenerator
  | .mk _kind _str _num (left :: ptail) _children => do
    let g ← CodeGenerator.generate_node g left
    match ptail with
    | right :: _ => do
      let (g, jump_past_right) := g.push_op .Nop
      let g := (g.push_op .Discard).1
      let g ← CodeGenerator.generate_node g right
      match Opcode.jump_forward_if_truthy jump_past_right g.chunk.len with
      | some op => .ok { g with chunk := g.chunk.patch jump_past_right op }
      | none => .err .OperatorRhsTooLarge
    | [] => .panicked
  | _ => .panicked
termination_by node => (sizeOf node, 0)

/-- `CodeGenerator::generate_while`: scope and breakable block around the
condition (with a reserved jump-to-end), the discarded body, the backward
jump, the end backpatch, and the `nil` the loop expression yields. -/
def CodeGenerator.generate_while (g : CodeGenerator) :
    Node → Fallible ErrorKind CodeGenerator
  | .mk _kind _str _num (condition :: _ptail) body => do
    let g := g.push_scope
    let g := g.push_breakable_block
    let start := g.chunk.len
    let g ← CodeGenerator.generate_node g condition
    let (g, jump_to_end) := g.push_op .Nop
    let g := (g.push_op .Discard).1
    let g ← CodeGenerator.generate_node_list g body
    let g := (g.push_op .Discard).1
    match Opcode.jump_backward g.chunk.len start with
    | none => .err .LoopTooLarge
    | some back => do
      let g := (g.push_op back).1
      match Opcode.jump_forward_if_falsy jump_to_end g.chunk.len with
      | none => .err .LoopTooLarge
      | some fwd => do
        let g := { g with chunk := g.chunk.patch jump_to_end fwd }
        let g := (g.push_op .Discard).1
        let g := (g.push_op .PushNil).1
        let g ← g.pop_breakable_block
        g.pop_scope
  | _ => .panicked
termination_by node => (sizeOf node, 0)

/-- `CodeGenerator::generate_break`: generate the operand, reserve a `Nop`
and register it with the innermost breakable block;
`BreakOutsideOfLoop` when none is open. -/
def CodeGenerator.generate_break (g : CodeGenerator) :
    Node → Fallible ErrorKind CodeGenerator
  | .mk _kind _str _num (right :: _ptail) _children => do
    let g ← CodeGenerator.generate_node g right
    let (g, jump) := g.push_op .Nop
    match g.breakable_blocks with
    | block :: rest =>
      .ok { g with breakable_blocks :=
        { block with breaks := block.breaks ++ [jump] } :: rest }
    | [] => .err .BreakOutsideOfLoop
  | _ => .panicked
termination_by node => (sizeOf node, 0)

/-- The argument loop of `CodeGenerator::generate_call`. -/
def CodeGenerator.generate_call_args (g : CodeGenerator) :
    List Node → Fallible ErrorKind CodeGenerator
  | [] => .ok g
  | a :: rest => do
    let g ← CodeGenerator.generate_node g a
    CodeGenerator.generate_call_args g rest
termination_by args => (sizeOf args, 0)

/-- `CodeGenerator::generate_call`: the callee, the arguments left to
right, then `Call(argc)`. -/
def CodeGenerator.generate_call (g : CodeGenerator) :
    Node → Fallible ErrorKind CodeGenerator
  | .mk _kind _str _num (function :: _ptail) arguments => do
    let g ← CodeGenerator.generate_node g function
    let g ← CodeGenerator.generate_call_args g arguments
    if arguments.length < 2 ^ 24 then
      .ok (g.push_op (.Call arguments.length)).1
    else .err .TooManyArguments
  | _ => .panicked
termination_by node => (sizeOf node, 1)

/-- `CodeGenerator::generate_function`: create the binding first (for
recursion), compile the body in a child generator whose `Locals` parent is
the current locals, emit `Return`, restore the locals, register the
`Function` (with the child's `captured_locals`), emit
`CreateClosure(function_id)`, and for named declarations assign and yield
`nil`. -/
def CodeGenerator.generate_function (g : CodeGenerator) :
    Node → Fallible ErrorKind CodeGenerator
  | .mk _kind _str _num (name_node :: parameters :: _ptail) body => do
    let name : Option String := name_node.str
    let vg ←
      match name with
      | some n =>
        match g.create_variable n .Allocate with
        | .ok (v, g) => Fallible.ok (some v, g)
        | .err e => .err e
        | .panicked => Fallible.panicked
      | none => .ok (none, g)
    match vg with
    | (var?, g) => do
      let child : CodeGenerator :=
        { env := g.env, chunk := Chunk.new,
          locals := .mk (some g.locals) [] 0 0 [] [] [],
          breakable_blocks := [] }
      let child := child.push_scope
      let child ← child.create_parameters parameters.children
      let child ← CodeGenerator.generate_node_list child body
      let child ← child.pop_scope
      let child_chunk := (child.chunk.push .Return).1
      match child.locals with
      | .mk none _ _ _ _ _ _ => .panicked
      | .mk (some parent_locals) _ _ _ captured _ _ =>
        if parameters.children.length < 2 ^ 16 then
          let fn : Function :=
            { name := name.getD "<anonymous>",
              parameter_count := some parameters.children.length,
              kind := .Bytecode child_chunk captured }
          match Environment.create_function child.env fn with
          | .err e => .err e
          | .panicked => .panicked
          | .ok (function_id, env) =>
            let g : CodeGenerator :=
              { env := env, chunk := g.chunk, locals := parent_locals,
                breakable_blocks := g.breakable_blocks }
            let g := (g.push_op (.CreateClosure function_id)).1
            match var? with
            | some v =>
              let g := g.generate_variable_assign v
              let g := (g.push_op .Discard).1
              .ok g.generate_nil
            | none => .ok g
        else .err .TooManyParameters
  | _ => .panicked
termination_by node => (sizeOf node, 0)

/-- `CodeGenerator::generate_node`: the dispatch over node kinds.  `Empty`
panics ("empty nodes must never be generated"),
`IfBranch`/`ElseBranch`/`Parameters` are `unreachable!`, and `Return` is
`todo!("return is NYI")` — each aborts rather than producing a chunk or a
compile error. -/
def CodeGenerator.generate_node (g : CodeGenerator) (node : Node) :
    Fallible ErrorKind CodeGenerator :=
  match node.kind with
  | .Empty => .panicked
  | .Nil => .ok g.generate_nil
  | .False | .True => CodeGenerator.generate_boolean g node
  | .Number => g.generate_number node
  | .String => g.generate_string node
  | .Identifier => g.generate_variable node
  | .Negate | .Not => CodeGenerator.generate_unary g node
  | .Add | .Subtract | .Multiply | .Divide | .Equal | .NotEqual
  | .Less | .Greater | .LessEqual | .GreaterEqual => CodeGenerator.generate_binary g node
  | .And => CodeGenerator.generate_and g node
  | .Or => CodeGenerator.generate_or g node
  | .Assign => CodeGenerator.generate_assignment g node
  | .Main => CodeGenerator.generate_node_list g node.children
  | .Do => CodeGenerator.generate_do g node
  | .If => CodeGenerator.generate_if g node
  | .While => CodeGenerator.generate_while g node
  | .Break => CodeGenerator.generate_break g node
  | .Func => CodeGenerator.generate_function g node
  | .Call => CodeGenerator.generate_call g node
  | .Return => .panicked
  | .IfBranch | .ElseBranch | .Parameters => .panicked
termination_by (sizeOf node, 2)
decreasing_by
  all_goals
    first
    | decreasing_tactic
    | (apply Prod.Lex.left
       cases node
       simp [Node.children])

end

/-- `CodeGenerator::generate`: generate the root node, then `Halt`. -/
def CodeGenerator.generate (g : CodeGenerator) (root_node : Node) :
    Fallible ErrorKind (Chunk × Environment) :=
  match g.generate_node root_node with
  | .ok g => .ok ((g.chunk.push .Halt).1, g.env)
  | .err e => .err e
  | .panicked => .panicked

end codegen

/-! ## The engine facade (`hl/engine.rs`)

Only the front of `Engine::call_method` is embedded: signature interning,
the arity check, and the synthetic dispatch chunk.  Driving the fiber (the
VM trampoline) is outside the embedded sources, so reaching the chunk is
"proceeding to dispatch". -/

namespace engine

/-- A value already lowered to the VM representation (`RawValue`); its
structure is irrelevant to the embedded engine code, which only counts
them. -/
abbrev RawValue := Nat

/-- The public `Error` type of the engine facade (the variants
`Engine::call_method` produces before dispatch). -/
inductive Error where
  | ArgumentCount (expected : Nat) (got : Nat)
  | TooManyArguments
  | TooManyMethods
deriving DecidableEq, Repr

/-- `impl MethodSignature for (&str, u8)`: interning `(name, a)` creates
the signature with receiver-inclusive arity `a + 1` and no trait
(`TooManyMethods` when the index space is exhausted).  The declared arity
`a` is a `u8`, so `a ≤ 255`. -/
def to_method_id (env : codegen.Environment) (name : String) (a : Nat) :
    codegen.Fallible Error (Nat × codegen.Environment) :=
  match env.get_or_create_method_index ⟨name, some (a + 1), none⟩ with
  | .ok r => .ok r
  | .err _ => .err .TooManyMethods
  | .panicked => .panicked

/-- `Engine::call_method(receiver, (name, a), arguments)`, embedded up to
the start of the fiber: intern the signature, build the stack
`receiver :: arguments`, convert its length to a `u8`
(`TooManyArguments` past 255), check it against the signature's
receiver-inclusive arity (`ArgumentCount` with the receiver subtracted
back out on mismatch; the `unwrap` on a variadic arity would panic, but
interned signatures always carry a static arity), and return the synthetic
`CallMethod`+`Halt` chunk the trampoline would execute. -/
def Engine.call_method (env : codegen.Environment) (receiver : RawValue)
    (name : String) (a : Nat) (arguments : List RawValue) :
    codegen.Fallible Error (codegen.Environment × List codegen.Opcode) :=
  match to_method_id env name a with
  | .err e => .err e
  | .panicked => .panicked
  | .ok (method_id, env) =>
    match env.get_method_signature method_id with
    | none => .panicked
    | some signature =>
      let stack : List RawValue := receiver :: arguments
      if stack.length ≤ 255 then
        let argument_count := stack.length
        if some argument_count ≠ signature.arity then
          match signature.arity with
          | some expected_arity =>
            .err (.ArgumentCount (expected_arity - 1) (argument_count - 1))
          | none => .panicked
        else
          .ok (env, [.CallMethod method_id argument_count, .Halt])
      else .err .TooManyArguments

end engine

/-! ## Common constructor calls of the two value encodings

Used to quantify over "constructed values" when comparing the NaN-boxed
and portable encodings, and to state equality laws over the values the
NaN-boxed encoding builds. -/

/-- One constructor call of the operation set both encodings provide
(`new_nil`, `new_boolean`, `new_number`, `new_string`, `new_function`,
`new_struct`, `new_user_data`). -/
inductive Ctor where
  | nil
  | boolean (b : Bool)
  | number (bits : Nat)
  | string (p : Nat)
  | function (p : Nat)
  | struct (p : Nat)
  | user_data (p : Nat)
deriving DecidableEq, Repr

/-- Build the NaN-boxed value of a constructor call. -/
def Ctor.mk_nanbox : Ctor → nanbox.ValueImpl
  | .nil => nanbox.new_nil
  | .boolean b => nanbox.new_boolean b
  | .number bits => nanbox.new_number bits
  | .string p => nanbox.new_string p
  | .function p => nanbox.new_function p
  | .struct p => nanbox.new_struct p
  | .user_data p => nanbox.new_user_data p

/-- Build the portable value of a constructor call. -/
def Ctor.mk_portable : Ctor → portable.ValueImpl
  | .nil => portable.new_nil
  | .boolean b => portable.new_boolean b
  | .number bits => portable.new_number bits
  | .string p => portable.new_string p
  | .function p => portable.new_function p
  | .struct p => portable.new_struct p
  | .user_data p => portable.new_user_data p

/-- A well-formed heap address: nonzero (it came from `Rc::into_raw` /
the allocator), 8-byte aligned (the compile-time assertions of
`nanbox.rs`), and within the 50-bit pointer space of the compact
encoding. -/
def wf_ptr (p : Nat) : Prop := 0 < p ∧ p &&& 7 = 0 ∧ p < 2 ^ 50

/-- A well-formed constructor call: heap constructors get well-formed
addresses; number constructors get a word the NaN-boxed encoding can
represent as a number (every bit pattern except a quiet NaN with nonzero
payload — see `is_number`). -/
def Ctor.wf : Ctor → Prop
  | .nil => True
  | .boolean _ => True
  | .number bits => bits < 2 ^ 64 ∧ (nanbox.ValueImpl.mk bits).is_number = true
  | .string p => wf_ptr p
  | .function p => wf_ptr p
  | .struct p => wf_ptr p
  | .user_data p => wf_ptr p

/-- Whether the constructor call produces an IEEE NaN number. -/
def Ctor.is_nan_number : Ctor → Prop
  | .number bits => f64.is_nan bits = true
  | _ => False

end Mica

/-! # Theorems -/

namespace Mica

namespace f64

theorem eq_symm (a b : Nat) : eq a b = eq b a := by
  unfold eq
  rw [Bool.or_comm (is_nan a), Bool.and_comm (a &&& MAGNITUDE_MASK == 0),
    @Bool.beq_comm Nat _ _ a b]

theorem eq_refl_of_not_nan {a : Nat} (h : is_nan a = false) : eq a a = true := by
  unfold eq
  rw [h]
  simp

end f64

namespace nanbox

/-! ### Bit-level facts about the encoding's masks -/

theorem QNAN_testBit (i : Nat) : QNAN.testBit i = decide (50 ≤ i ∧ i < 63) := by
  simp only [QNAN, Nat.testBit_shiftLeft, Nat.testBit_two_pow_sub_one, ← Bool.decide_and,
    decide_eq_decide]
  omega

theorem SIGN_BIT_testBit (i : Nat) : SIGN_BIT.testBit i = decide (i = 63) := by
  simp only [SIGN_BIT, Nat.testBit_two_pow, decide_eq_decide]
  omega

theorem U64_ONES_testBit (i : Nat) : U64_ONES.testBit i = decide (i < 64) := by
  simp only [U64_ONES, Nat.testBit_two_pow_sub_one]

theorem PAYLOAD_BITS_value : PAYLOAD_BITS = 2 ^ 50 - 1 := by decide

theorem PAYLOAD_BITS_testBit (i : Nat) : PAYLOAD_BITS.testBit i = decide (i < 50) := by
  rw [PAYLOAD_BITS_value, Nat.testBit_two_pow_sub_one]

theorem OBJECT_TAG_BITS_testBit (i : Nat) : OBJECT_TAG_BITS.testBit i = decide (i < 3) := by
  have h : OBJECT_TAG_BITS = 2 ^ 3 - 1 := rfl
  rw [h, Nat.testBit_two_pow_sub_one]

theorem OBJECT_POINTER_BITS_value : OBJECT_POINTER_BITS = (2 ^ 50 - 1) ^^^ (2 ^ 3 - 1) := by
  decide

theorem OBJECT_POINTER_BITS_testBit (i : Nat) :
    OBJECT_POINTER_BITS.testBit i = decide (3 ≤ i ∧ i < 50) := by
  rw [OBJECT_POINTER_BITS_value]
  simp only [Nat.testBit_xor, Nat.testBit_two_pow_sub_one]
  by_cases h1 : i < 3 <;> by_cases h2 : i < 50 <;> simp [h1, h2] <;> omega

/-- Bits at or above position `n` of a number below `2 ^ n` are clear. -/
theorem testBit_of_lt_two_pow {p n i : Nat} (h : p < 2 ^ n) (hi : n ≤ i) :
    p.testBit i = false :=
  Nat.testBit_lt_two_pow (lt_of_lt_of_le h (Nat.pow_le_pow_right (by omega) hi))

/-- The low three bits of an 8-byte-aligned address are clear. -/
theorem testBit_low_of_aligned {p i : Nat} (h : p &&& 7 = 0) (hi : i < 3) :
    p.testBit i = false := by
  have h7 : (7 : Nat) = 2 ^ 3 - 1 := rfl
  have := congrArg (fun x => x.testBit i) h
  simp only [Nat.testBit_and, h7, Nat.testBit_two_pow_sub_one, Nat.zero_testBit] at this
  simpa [hi] using this

theorem nan_bits_testBit (s p i : Nat) :
    (nan_bits s p).testBit i =
      (QNAN.testBit i || (s <<< 63).testBit i || p.testBit i) := by
  simp [nan_bits]

/-- Any NaN-tagged word satisfies the `QNAN` mask. -/
theorem nan_bits_land_QNAN (s p : Nat) : nan_bits s p &&& QNAN = QNAN := by
  apply Nat.eq_of_testBit_eq
  intro i
  simp only [Nat.testBit_and, nan_bits_testBit]
  cases h : QNAN.testBit i <;> simp [h]

/-- Extracting the payload of a NaN-tagged word recovers the payload. -/
theorem nan_bits_land_PAYLOAD {p : Nat} (s : Nat) (hp : p < 2 ^ 50) :
    nan_bits s p &&& PAYLOAD_BITS = p := by
  apply Nat.eq_of_testBit_eq
  intro i
  simp only [Nat.testBit_and, nan_bits_testBit, PAYLOAD_BITS_testBit, QNAN_testBit,
    Nat.testBit_shiftLeft]
  by_cases hi : i < 50
  · simp [hi, testBit_of_lt_two_pow, Nat.lt_irrefl]
    omega
  · simp [hi, testBit_of_lt_two_pow hp (by omega : 50 ≤ i)]

/-- An object word has its sign bit set, whatever the payload. -/
theorem nan_bits_one_land_SIGN (p : Nat) : nan_bits 1 p &&& SIGN_BIT = SIGN_BIT := by
  apply Nat.eq_of_testBit_eq
  intro i
  simp only [Nat.testBit_and, nan_bits_testBit, SIGN_BIT_testBit, QNAN_testBit,
    Nat.testBit_shiftLeft]
  by_cases h : i = 63
  · subst h
    simp
  · simp [h]

/-- An enum word (sign 0) has its sign bit clear. -/
theorem nan_bits_zero_land_SIGN {p : Nat} (hp : p < 2 ^ 50) :
    nan_bits 0 p &&& SIGN_BIT = 0 := by
  apply Nat.eq_of_testBit_eq
  intro i
  simp only [Nat.testBit_and, nan_bits_testBit, SIGN_BIT_testBit, QNAN_testBit,
    Nat.testBit_shiftLeft, Nat.zero_testBit]
  by_cases h : i = 63
  · subst h
    simp [testBit_of_lt_two_pow hp (by omega : 50 ≤ 63)]
  · simp [h]

/-- The `is_number` test on a NaN word checks whether the payload is zero. -/
theorem is_number_new_nan {p : Nat} (s : Nat) (hp : p < 2 ^ 50) :
    (new_nan s p).is_number = (p == 0) := by
  unfold ValueImpl.is_number new_nan
  simp only
  rw [nan_bits_land_QNAN, nan_bits_land_PAYLOAD s hp]
  simp

/-- The object tag of a tagged object word. -/
theorem object_tag_new_object_nan {tag p : Nat} (ht : tag < 8) (ha : p &&& 7 = 0) :
    (new_object_nan tag p).object_tag = tag := by
  apply Nat.eq_of_testBit_eq
  intro i
  simp only [ValueImpl.object_tag, new_object_nan, new_nan, Nat.testBit_and, nan_bits_testBit,
    OBJECT_TAG_BITS_testBit, QNAN_testBit, Nat.testBit_shiftLeft, Nat.testBit_or]
  by_cases h : i < 3
  · simp [h, testBit_low_of_aligned ha h]
    omega
  · simp [h, testBit_of_lt_two_pow ht (by omega : 3 ≤ i)]

/-- The object pointer of a tagged object word. -/
theorem object_pointer_new_object_nan {tag p : Nat} (ht : tag < 8) (hp : p < 2 ^ 50)
    (ha : p &&& 7 = 0) : (new_object_nan tag p).object_pointer = p := by
  apply Nat.eq_of_testBit_eq
  intro i
  simp only [ValueImpl.object_pointer, new_object_nan, new_nan, Nat.testBit_and, nan_bits_testBit,
    OBJECT_POINTER_BITS_testBit, QNAN_testBit, Nat.testBit_shiftLeft, Nat.testBit_or]
  by_cases h3 : i < 3
  · have f1 : ¬(3 ≤ i ∧ i < 50) := by omega
    simp [f1, testBit_low_of_aligned ha h3]
  · by_cases h50 : i < 50
    · have f1 : ¬(50 ≤ i ∧ i < 63) := by omega
      have f2 : ¬63 ≤ i := by omega
      have f3 : (3 ≤ i ∧ i < 50) := by omega
      simp [f1, f2, f3, testBit_of_lt_two_pow ht (by omega : 3 ≤ i)]
    · have f1 : ¬(3 ≤ i ∧ i < 50) := by omega
      simp [f1, testBit_of_lt_two_pow hp (by omega : 50 ≤ i)]

/-- A nonempty, bounded payload makes a NaN word a non-number. -/
theorem is_number_new_nan_eq_false {p : Nat} (s : Nat) (h0 : 0 < p) (hp : p < 2 ^ 50) :
    (new_nan s p).is_number = false := by
  rw [is_number_new_nan s hp]
  simp
  omega

/-- A `lor` with a positive left operand is positive. -/
theorem pos_lor_left {p t : Nat} (h0 : 0 < p) : 0 < p ||| t := by
  rcases Nat.eq_zero_or_pos (p ||| t) with h | h
  · exfalso
    have hp : p = 0 := by
      apply Nat.eq_of_testBit_eq
      intro i
      have hb := congrArg (fun x => x.testBit i) h
      simp only [Nat.testBit_or, Nat.zero_testBit] at hb ⊢
      exact (Bool.or_eq_false_iff.mp hb).1
    omega
  · exact h

/-- The payload bound for a tagged, bounded pointer. -/
theorem lor_tag_lt {tag p : Nat} (ht : tag < 8) (hp : p < 2 ^ 50) : p ||| tag < 2 ^ 50 :=
  Nat.or_lt_two_pow hp (lt_of_lt_of_le ht (by norm_num))

/-- A tagged object word with a nonzero bounded pointer is an object. -/
theorem is_object_new_object_nan {tag p : Nat} (ht : tag < 8) (h0 : 0 < p) (hp : p < 2 ^ 50) :
    (new_object_nan tag p).is_object = true := by
  have hlt : p ||| tag < 2 ^ 50 := lor_tag_lt ht hp
  have h0' : 0 < p ||| tag := pos_lor_left h0
  unfold ValueImpl.is_object
  rw [ValueImpl.is_number]
  simp only [new_object_nan, new_nan, SIGN_OBJECT]
  rw [nan_bits_one_land_SIGN, nan_bits_land_QNAN, nan_bits_land_PAYLOAD 1 hlt]
  simp
  omega

theorem le_lor_left (p t : Nat) : p ≤ p ||| t := by
  have habs : p &&& (p ||| t) = p := by
    apply Nat.eq_of_testBit_eq
    intro i
    simp only [Nat.testBit_and, Nat.testBit_or]
    cases h : p.testBit i <;> simp [h]
  calc p = p &&& (p ||| t) := habs.symm
    _ ≤ p ||| t := Nat.and_le_right

/-- An 8-byte-aligned nonzero address is at least 8. -/
theorem eight_le_of_aligned_pos {p : Nat} (ha : p &&& 7 = 0) (h0 : 0 < p) : 8 ≤ p := by
  by_contra h
  push_neg at h
  interval_cases p <;> revert ha <;> decide

/-- The payloads of two equal NaN words agree. -/
theorem nan_bits_payload_inj {s s' p p' : Nat} (hp : p < 2 ^ 50) (hp' : p' < 2 ^ 50)
    (h : nan_bits s p = nan_bits s' p') : p = p' := by
  have hh := congrArg (fun x => x &&& PAYLOAD_BITS) h
  simp only at hh
  rwa [nan_bits_land_PAYLOAD s hp, nan_bits_land_PAYLOAD s' hp'] at hh

theorem is_number_mk_NIL_BITS : (ValueImpl.mk NIL_BITS).is_number = false := by decide

theorem is_number_mk_FALSE_BITS : (ValueImpl.mk FALSE_BITS).is_number = false := by decide

theorem is_number_mk_TRUE_BITS : (ValueImpl.mk TRUE_BITS).is_number = false := by decide

/-- The `is_number` test coincides with the spec's wording: every word that
is not a quiet NaN with a nonzero payload is a number. -/
theorem is_number_iff (n : Nat) :
    (ValueImpl.mk n).is_number = true ↔ ¬(n &&& QNAN = QNAN ∧ n &&& PAYLOAD_BITS ≠ 0) := by
  unfold ValueImpl.is_number
  simp only [Bool.or_eq_true, bne_iff_ne, beq_iff_eq]
  constructor
  · rintro (h | h) ⟨h1, h2⟩ <;> [exact h h1; exact h2 h]
  · intro h
    by_cases h1 : n &&& QNAN = QNAN
    · right
      by_contra h2
      exact h ⟨h1, h2⟩
    · left
      exact h1

/-- Any number word is classified as a `Number` by `kind`. -/
theorem kind_of_is_number {v : ValueImpl} (h : v.is_number = true) : v.kind = .Number := by
  obtain ⟨bits⟩ := v
  have h1 : bits ≠ NIL_BITS := by
    intro he
    rw [he] at h
    exact absurd h (by decide)
  have h2 : bits ≠ TRUE_BITS := by
    intro he
    rw [he] at h
    exact absurd h (by decide)
  have h3 : bits ≠ FALSE_BITS := by
    intro he
    rw [he] at h
    exact absurd h (by decide)
  have hobj : (ValueImpl.mk bits).is_object = false := by
    unfold ValueImpl.is_object
    rw [h]
    simp
  unfold ValueImpl.kind
  simp [h1, h2, h3, hobj]

/-- The bits of a freshly built object word are never the nil/true/false
enum words (their payloads differ: an aligned nonzero pointer is ≥ 8). -/
theorem new_object_nan_bits_ne_enum {tag p : Nat} (ht : tag < 8) (h0 : 0 < p)
    (hp : p < 2 ^ 50) (ha : p &&& 7 = 0) :
    (new_object_nan tag p).bits ≠ NIL_BITS ∧ (new_object_nan tag p).bits ≠ FALSE_BITS ∧
      (new_object_nan tag p).bits ≠ TRUE_BITS := by
  have h8 : 8 ≤ p := eight_le_of_aligned_pos ha h0
  have h8' : 8 ≤ p ||| tag := le_trans h8 (le_lor_left p tag)
  have hlt : p ||| tag < 2 ^ 50 := lor_tag_lt ht hp
  refine ⟨?_, ?_, ?_⟩ <;>
    · intro he
      simp only [new_object_nan, new_nan, NIL_BITS, FALSE_BITS, TRUE_BITS, enum_nan_bits,
        SIGN_ENUM, SIGN_OBJECT, ENUM_NIL, ENUM_FALSE, ENUM_TRUE] at he
      have hinj := nan_bits_payload_inj hlt (by norm_num) he
      omega

/-- `kind` classifies every constructed object word by its tag. -/
theorem kind_new_object_nan {tag p : Nat} (ht : tag < 4) (h0 : 0 < p) (hp : p < 2 ^ 50)
    (ha : p &&& 7 = 0) :
    (new_object_nan tag p).kind =
      if tag = OBJECT_STRING then .String
      else if tag = OBJECT_FUNCTION then .Function
      else if tag = OBJECT_STRUCT then .Struct
      else .UserData := by
  have ht8 : tag < 8 := by omega
  have hobj := is_object_new_object_nan ht8 h0 hp
  have htag := object_tag_new_object_nan ht8 ha
  obtain ⟨hn1, hn2, hn3⟩ := new_object_nan_bits_ne_enum ht8 h0 hp ha
  unfold ValueImpl.kind
  rw [htag]
  simp only [hn1, hn2, hn3, hobj, if_false, if_true, false_or, or_self]
  simp only [OBJECT_STRING, OBJECT_FUNCTION, OBJECT_STRUCT, OBJECT_USER_DATA]
  interval_cases tag <;> simp

/-! ### Equality laws of the NaN-boxed encoding -/

/-- A number word is not an object. -/
theorem is_object_eq_false_of_is_number {v : ValueImpl} (h : v.is_number = true) :
    v.is_object = false := by
  unfold ValueImpl.is_object
  rw [h]
  simp

/-- On two number words, `eq` is IEEE float equality. -/
theorem eq_of_numbers (heap : Nat → String) {a b : ValueImpl}
    (ha : a.is_number = true) (hb : b.is_number = true) :
    ValueImpl.eq heap a b = f64.eq a.bits b.bits := by
  unfold ValueImpl.eq
  simp [ha, hb]

/-- `eq` is symmetric on every pair of words. -/
theorem eq_symm_all (heap : Nat → String) (a b : ValueImpl) :
    ValueImpl.eq heap a b = ValueImpl.eq heap b a := by
  unfold ValueImpl.eq
  by_cases hna : a.is_number = true <;> by_cases hnb : b.is_number = true <;>
    simp [hna, hnb, is_object_eq_false_of_is_number]
  · exact f64.eq_symm a.bits b.bits
  · exact eq_comm
  · exact eq_comm
  · by_cases hoa : a.is_object = true <;> by_cases hob : b.is_object = true <;>
      simp [hoa, hob]
    · by_cases htab : a.object_tag = b.object_tag
      · by_cases hts : a.object_tag = OBJECT_STRING
        · simp [htab, hts, htab ▸ hts]
          exact eq_comm
        · simp [htab, hts, htab ▸ hts]
          exact eq_comm
      · have h2 : b.object_tag ≠ a.object_tag := fun h => htab h.symm
        simp [htab, h2]
        exact eq_comm
    · exact eq_comm
    · exact eq_comm
    · exact eq_comm

/-- When exactly one side is a number, `eq` is false. -/
theorem eq_false_of_is_number_ne (heap : Nat → String) {a b : ValueImpl}
    (ha : a.is_number = true) (hb : b.is_number = false) :
    ValueImpl.eq heap a b = false := by
  have hne : a.bits ≠ b.bits := by
    intro h
    have : a.is_number = b.is_number := by
      unfold ValueImpl.is_number
      rw [h]
    rw [ha, hb] at this
    simp at this
  unfold ValueImpl.eq
  simp [ha, hb, is_object_eq_false_of_is_number ha, hne]

/-- `is_number` facts for each object constructor under a well-formed
pointer. -/
theorem is_number_new_object_eq_false {tag p : Nat} (ht : tag < 8)
    (hw : 0 < p ∧ p &&& 7 = 0 ∧ p < 2 ^ 50) :
    (new_object_nan tag p).is_number = false := by
  obtain ⟨h0, _, hp⟩ := hw
  exact is_number_new_nan_eq_false SIGN_OBJECT (pos_lor_left h0) (lor_tag_lt ht hp)

/-- Equality of two same-tag object words (tag ≠ string) is handle
identity: the fallthrough compares the raw words, and those agree exactly
when the pointers do. -/
theorem eq_object_same_tag_iff (heap : Nat → String) {tag p q : Nat}
    (ht : tag < 8) (hts : tag ≠ OBJECT_STRING)
    (hp : 0 < p ∧ p &&& 7 = 0 ∧ p < 2 ^ 50) (hq : 0 < q ∧ q &&& 7 = 0 ∧ q < 2 ^ 50) :
    (ValueImpl.eq heap (new_object_nan tag p) (new_object_nan tag q) = true ↔ p = q) := by
  have hnp := is_number_new_object_eq_false ht hp
  have hnq := is_number_new_object_eq_false ht hq
  have htagp := object_tag_new_object_nan ht hp.2.1
  have htagq := object_tag_new_object_nan ht hq.2.1
  have hptrp := object_pointer_new_object_nan ht hp.2.2 hp.2.1
  have hptrq := object_pointer_new_object_nan ht hq.2.2 hq.2.1
  unfold ValueImpl.eq
  simp [hnp, hnq, htagp, htagq, hts]
  constructor
  · intro h
    have := congrArg (fun bits => bits &&& OBJECT_POINTER_BITS) h
    simp only at this
    rw [show ((new_object_nan tag p).bits &&& OBJECT_POINTER_BITS)
          = (new_object_nan tag p).object_pointer from rfl,
        show ((new_object_nan tag q).bits &&& OBJECT_POINTER_BITS)
          = (new_object_nan tag q).object_pointer from rfl,
        hptrp, hptrq] at this
    exact this
  · intro h
    rw [h]

/-- String equality is contents equality of the pointed-to strings. -/
theorem eq_string_contents (heap : Nat → String) {p q : Nat}
    (hp : 0 < p ∧ p &&& 7 = 0 ∧ p < 2 ^ 50) (hq : 0 < q ∧ q &&& 7 = 0 ∧ q < 2 ^ 50) :
    ValueImpl.eq heap (new_string p) (new_string q) = (heap p == heap q) := by
  have h8 : OBJECT_STRING < 8 := by norm_num [OBJECT_STRING]
  have hnp := is_number_new_object_eq_false h8 hp
  have hnq := is_number_new_object_eq_false h8 hq
  have hop := is_object_new_object_nan h8 hp.1 hp.2.2
  have hoq := is_object_new_object_nan h8 hq.1 hq.2.2
  have htagp := object_tag_new_object_nan h8 hp.2.1
  have htagq := object_tag_new_object_nan h8 hq.2.1
  have hptrp := object_pointer_new_object_nan h8 hp.2.2 hp.2.1
  have hptrq := object_pointer_new_object_nan h8 hq.2.2 hq.2.1
  unfold ValueImpl.eq new_string
  simp [hnp, hnq, hop, hoq, htagp, htagq, hptrp, hptrq]

/-- The raw words of two object values with different (bounded) tags
differ. -/
theorem bits_ne_of_object_tags_ne {tag1 tag2 p q : Nat} (h1 : tag1 < 8)
    (h2 : tag2 < 8) (hne : tag1 ≠ tag2) (hp : p &&& 7 = 0) (hq : q &&& 7 = 0) :
    (new_object_nan tag1 p).bits ≠ (new_object_nan tag2 q).bits := by
  intro h
  have := congrArg (fun bits => bits &&& OBJECT_TAG_BITS) h
  simp only at this
  rw [show ((new_object_nan tag1 p).bits &&& OBJECT_TAG_BITS)
        = (new_object_nan tag1 p).object_tag from rfl,
      show ((new_object_nan tag2 q).bits &&& OBJECT_TAG_BITS)
        = (new_object_nan tag2 q).object_tag from rfl,
      object_tag_new_object_nan h1 hp, object_tag_new_object_nan h2 hq] at this
  exact hne this

/-- Classification of an object word follows its tag. -/
theorem kind_of_is_object {v : ValueImpl} (h : v.is_object = true) :
    v.kind =
      (if v.object_tag = OBJECT_STRING then .String
       else if v.object_tag = OBJECT_FUNCTION then .Function
       else if v.object_tag = OBJECT_STRUCT then .Struct
       else if v.object_tag = OBJECT_USER_DATA then .UserData
       else .Nil) := by
  obtain ⟨bits⟩ := v
  have h1 : bits ≠ NIL_BITS := by
    intro he
    rw [he] at h
    exact absurd h (by decide)
  have h2 : bits ≠ TRUE_BITS := by
    intro he
    rw [he] at h
    exact absurd h (by decide)
  have h3 : bits ≠ FALSE_BITS := by
    intro he
    rw [he] at h
    exact absurd h (by decide)
  unfold ValueImpl.kind
  simp [h1, h2, h3, h]

/-- Two equal non-number words have the same kind (`kind` is a function of
the bits, and the string-contents branch applies only to two words of the
same object tag). -/
theorem kind_eq_of_eq_true (heap : Nat → String) {a b : ValueImpl}
    (h : ValueImpl.eq heap a b = true) (hna : a.is_number = false)
    (hnb : b.is_number = false) : a.kind = b.kind := by
  unfold ValueImpl.eq at h
  rw [hna] at h
  simp only [Bool.false_and, if_neg (by simp : ¬(false = true))] at h
  by_cases hoa : a.is_object = true
  · by_cases hob : b.is_object = true
    · by_cases ht : a.object_tag = b.object_tag
      · rw [kind_of_is_object hoa, kind_of_is_object hob, ht]
      · simp [hoa, hob, ht] at h
        exact absurd (congrArg (fun bits => bits &&& OBJECT_TAG_BITS) h) ht
    · simp [hob] at h
      obtain ⟨ba⟩ := a
      obtain ⟨bb⟩ := b
      simp only at h
      rw [h]
  · simp [hoa] at h
    obtain ⟨ba⟩ := a
    obtain ⟨bb⟩ := b
    simp only at h
    rw [h]

/-- Two words of different kinds are never equal. -/
theorem eq_false_of_kind_ne (heap : Nat → String) (a b : ValueImpl)
    (hk : a.kind ≠ b.kind) : ValueImpl.eq heap a b = false := by
  by_cases hna : a.is_number = true <;> by_cases hnb : b.is_number = true
  · exact absurd ((kind_of_is_number hna).trans (kind_of_is_number hnb).symm) hk
  · exact eq_false_of_is_number_ne heap hna (by simpa using hnb)
  · rw [eq_symm_all]
    exact eq_false_of_is_number_ne heap hnb (by simpa using hna)
  · by_cases hEq : ValueImpl.eq heap a b = true
    · exact absurd
        (kind_eq_of_eq_true heap hEq (by simpa using hna) (by simpa using hnb)) hk
    · simpa using hEq

/-- Equality is reflexive on every word that is not an IEEE NaN number. -/
theorem eq_refl_of_not_nan_number (heap : Nat → String) (v : ValueImpl)
    (h : ¬(v.is_number = true ∧ f64.is_nan v.bits = true)) :
    ValueImpl.eq heap v v = true := by
  unfold ValueImpl.eq
  by_cases hn : v.is_number = true
  · have hnan : f64.is_nan v.bits = false := by
      by_cases hx : f64.is_nan v.bits = true
      · exact absurd ⟨hn, hx⟩ h
      · simpa using hx
    simp [hn, f64.eq_refl_of_not_nan hnan]
  · simp [hn]

/-- A NaN number word is unequal to itself. -/
theorem eq_self_false_of_nan (heap : Nat → String) (v : ValueImpl)
    (hn : v.is_number = true) (hnan : f64.is_nan v.bits = true) :
    ValueImpl.eq heap v v = false := by
  unfold ValueImpl.eq
  simp [hn]
  unfold f64.eq
  simp [hnan]

/-- C4: Value equality in the NaN-boxed encoding: numbers compare by IEEE
semantics (so `Number(NaN) != Number(NaN)`); strings compare equal iff the
pointed-to contents are equal; functions and structs compare equal iff
they are the same heap object (handle identity); nil/true/false each equal
only themselves; two values of different kinds are never equal; and
equality is reflexive for every value except NaN numbers, and symmetric
for all pairs. -/
theorem value_equality_laws :
    (∀ (heap : Nat → String) (a b : ValueImpl), a.is_number = true →
      b.is_number = true → ValueImpl.eq heap a b = f64.eq a.bits b.bits)
    ∧ (∀ (heap : Nat → String) (v : ValueImpl), v.is_number = true →
      f64.is_nan v.bits = true → ValueImpl.eq heap v v = false)
    ∧ (∀ (heap : Nat → String) (p q : Nat), wf_ptr p → wf_ptr q →
      ValueImpl.eq heap (new_string p) (new_string q) = (heap p == heap q))
    ∧ (∀ (heap : Nat → String) (p q : Nat), wf_ptr p → wf_ptr q →
      (ValueImpl.eq heap (new_function p) (new_function q) = true ↔ p = q))
    ∧ (∀ (heap : Nat → String) (p q : Nat), wf_ptr p → wf_ptr q →
      (ValueImpl.eq heap (new_struct p) (new_struct q) = true ↔ p = q))
    ∧ (∀ heap : Nat → String,
      ValueImpl.eq heap new_nil new_nil = true
      ∧ ValueImpl.eq heap (new_boolean true) (new_boolean true) = true
      ∧ ValueImpl.eq heap (new_boolean false) (new_boolean false) = true
      ∧ ValueImpl.eq heap new_nil (new_boolean true) = false
      ∧ ValueImpl.eq heap new_nil (new_boolean false) = false
      ∧ ValueImpl.eq heap (new_boolean true) (new_boolean false) = false)
    ∧ (∀ (heap : Nat → String) (a b : ValueImpl), a.kind ≠ b.kind →
      ValueImpl.eq heap a b = false)
    ∧ (∀ (heap : Nat → String) (v : ValueImpl),
      ¬(v.is_number = true ∧ f64.is_nan v.bits = true) →
      ValueImpl.eq heap v v = true)
    ∧ (∀ (heap : Nat → String) (a b : ValueImpl),
      ValueImpl.eq heap a b = ValueImpl.eq heap b a) := by
  refine ⟨fun heap a b ha hb => eq_of_numbers heap ha hb,
    fun heap v hn hnan => eq_self_false_of_nan heap v hn hnan,
    fun heap p q hp hq => eq_string_contents heap hp hq,
    fun heap p q hp hq =>
      eq_object_same_tag_iff heap (by decide) (by decide) hp hq,
    fun heap p q hp hq =>
      eq_object_same_tag_iff heap (by decide) (by decide) hp hq,
    fun heap => ⟨rfl, rfl, rfl, rfl, rfl, rfl⟩,
    fun heap a b hk => eq_false_of_kind_ne heap a b hk,
    fun heap v h => eq_refl_of_not_nan_number heap v h,
    fun heap a b => eq_symm_all heap a b⟩

/-- Witness for C4: the equality laws evaluated at concrete inputs — the
zero word is a number equal to itself, the canonical quiet NaN is unequal
to itself, two distinct string objects with the same contents are equal,
two distinct function (and struct) objects are unequal and a function
object equals itself, nil differs from true, and a nil/number pair of
different kinds is unequal. -/
theorem value_equality_laws_witness :
    ValueImpl.eq (fun _ => "") (from_float 0) (from_float 0) = true
    ∧ ValueImpl.eq (fun _ => "") ⟨QNAN⟩ ⟨QNAN⟩ = false
    ∧ ValueImpl.eq (fun _ => "") (new_string 8) (new_string 16) = true
    ∧ ¬(ValueImpl.eq (fun _ => "") (new_function 8) (new_function 16) = true)
    ∧ ValueImpl.eq (fun _ => "") (new_function 8) (new_function 8) = true
    ∧ ¬(ValueImpl.eq (fun _ => "") (new_struct 8) (new_struct 16) = true)
    ∧ ValueImpl.eq (fun _ => "") new_nil (new_boolean true) = false
    ∧ ValueImpl.eq (fun _ => "") ⟨NIL_BITS⟩ ⟨QNAN⟩ = false := by
  refine ⟨?_, ?_, ?_, ?_, ?_, ?_, ?_, ?_⟩
  · exact eq_refl_of_not_nan_number (fun _ => "") (from_float 0) (by decide)
  · exact value_equality_laws.2.1 (fun _ => "") ⟨QNAN⟩ (by decide) (by decide)
  · exact (value_equality_laws.2.2.1 (fun _ => "") 8 16 ⟨by norm_num, by decide, by norm_num⟩
      ⟨by norm_num, by decide, by norm_num⟩).trans (by rfl)
  · intro h
    have := (value_equality_laws.2.2.2.1 (fun _ => "") 8 16 ⟨by norm_num, by decide, by norm_num⟩
      ⟨by norm_num, by decide, by norm_num⟩).mp h
    omega
  · exact (value_equality_laws.2.2.2.1 (fun _ => "") 8 8 ⟨by norm_num, by decide, by norm_num⟩
      ⟨by norm_num, by decide, by norm_num⟩).mpr rfl
  · intro h
    have := (value_equality_laws.2.2.2.2.1 (fun _ => "") 8 16 ⟨by norm_num, by decide, by norm_num⟩
      ⟨by norm_num, by decide, by norm_num⟩).mp h
    omega
  · exact (value_equality_laws.2.2.2.2.2.1 (fun _ => "")).2.2.2.1
  · exact value_equality_laws.2.2.2.2.2.2.1 (fun _ => "") ⟨NIL_BITS⟩ ⟨QNAN⟩ (by decide)

/-- C5: every word that is not a quiet NaN with nonzero payload round-trips
through `new_number` as a bit-identical `Number`; the nil/false/true enum
words and every tagged object word are classified as not-a-number, so they
never collide with any such float word. -/
theorem nan_boxing_number_representation :
    (∀ n : Nat, n < 2 ^ 64 → ¬(n &&& QNAN = QNAN ∧ n &&& PAYLOAD_BITS ≠ 0) →
      (new_number n).kind = ValueKind.Number
      ∧ (new_number n).get_number_unchecked = n)
    ∧ ((ValueImpl.mk NIL_BITS).is_number = false
      ∧ (ValueImpl.mk FALSE_BITS).is_number = false
      ∧ (ValueImpl.mk TRUE_BITS).is_number = false)
    ∧ (∀ tag p : Nat, tag < 8 → 0 < p → p < 2 ^ 50 →
      (new_object_nan tag p).is_number = false)
    ∧ (∀ n : Nat, ¬(n &&& QNAN = QNAN ∧ n &&& PAYLOAD_BITS ≠ 0) →
      n ≠ NIL_BITS ∧ n ≠ FALSE_BITS ∧ n ≠ TRUE_BITS
      ∧ ∀ tag p : Nat, tag < 8 → 0 < p → p < 2 ^ 50 →
        n ≠ (new_object_nan tag p).bits) := by
  have hobj : ∀ tag p : Nat, tag < 8 → 0 < p → p < 2 ^ 50 →
      (new_object_nan tag p).is_number = false := fun tag p ht h0 hp =>
    is_number_new_nan_eq_false SIGN_OBJECT (pos_lor_left h0) (lor_tag_lt ht hp)
  refine ⟨?_, ⟨by decide, by decide, by decide⟩, hobj, ?_⟩
  · intro n _ h
    have hn : (ValueImpl.mk n).is_number = true := (is_number_iff n).mpr h
    exact ⟨kind_of_is_number hn, rfl⟩
  · intro n h
    have hn : (ValueImpl.mk n).is_number = true := (is_number_iff n).mpr h
    refine ⟨?_, ?_, ?_, ?_⟩
    · intro he
      rw [he] at hn
      exact absurd hn (by decide)
    · intro he
      rw [he] at hn
      exact absurd hn (by decide)
    · intro he
      rw [he] at hn
      exact absurd hn (by decide)
    · intro tag p ht h0 hp he
      have hfalse : (ValueImpl.mk n).is_number = false := by
        rw [he]
        exact hobj tag p ht h0 hp
      rw [hn] at hfalse
      simp at hfalse

/-- Witness for C5: the zero word (the float `0.0`) is a `Number` and
round-trips; the infinity word `0x7FF0000000000000` as well; and the nil
word never collides with the zero word while the string object at address
8 is a non-number. -/
theorem nan_boxing_number_representation_witness :
    ((new_number 0).kind = ValueKind.Number
      ∧ (new_number 0).get_number_unchecked = 0)
    ∧ ((new_number 0x7FF0000000000000).kind = ValueKind.Number
      ∧ (new_number 0x7FF0000000000000).get_number_unchecked = 0x7FF0000000000000)
    ∧ (new_object_nan OBJECT_STRING 8).is_number = false
    ∧ (0 : Nat) ≠ NIL_BITS := by
  refine ⟨?_, ?_, ?_, ?_⟩
  · exact nan_boxing_number_representation.1 0 (by norm_num) (by decide)
  · exact nan_boxing_number_representation.1 0x7FF0000000000000 (by norm_num) (by decide)
  · exact nan_boxing_number_representation.2.2.1 OBJECT_STRING 8 (by decide) (by decide)
      (by norm_num)
  · exact (nan_boxing_number_representation.2.2.2 0 (by decide)).1

end nanbox

/-! ### Agreement of the two encodings away from user-data -/

/-- Both encodings classify every well-formed constructor call alike. -/
theorem kind_agree (c : Ctor) (h : c.wf) :
    (c.mk_nanbox).kind = (c.mk_portable).kind := by
  rcases c with _ | b | bits | p | p | p | p
  · rfl
  · cases b <;> rfl
  · exact nanbox.kind_of_is_number h.2
  · obtain ⟨h0, ha, hp⟩ := h
    simpa using nanbox.kind_new_object_nan (by decide) h0 hp ha
  · obtain ⟨h0, ha, hp⟩ := h
    simpa using nanbox.kind_new_object_nan (by decide) h0 hp ha
  · obtain ⟨h0, ha, hp⟩ := h
    simpa using nanbox.kind_new_object_nan (by decide) h0 hp ha
  · obtain ⟨h0, ha, hp⟩ := h
    simpa using nanbox.kind_new_object_nan (by decide) h0 hp ha

/-- The matching unchecked getters return the constructed payload in
both encodings. -/
theorem getters_agree :
    (∀ b : Bool, (Ctor.mk_nanbox (.boolean b)).get_boolean_unchecked = b
      ∧ (Ctor.mk_portable (.boolean b)).get_boolean_unchecked = b)
    ∧ (∀ bits : Nat, (Ctor.mk_nanbox (.number bits)).get_number_unchecked = bits
      ∧ (Ctor.mk_portable (.number bits)).get_number_unchecked = bits)
    ∧ (∀ p : Nat, wf_ptr p →
      (Ctor.mk_nanbox (.string p)).get_string_unchecked = p
      ∧ (Ctor.mk_portable (.string p)).get_raw_string_unchecked = p)
    ∧ (∀ p : Nat, wf_ptr p →
      (Ctor.mk_nanbox (.function p)).get_function_unchecked = p
      ∧ (Ctor.mk_portable (.function p)).get_raw_function_unchecked = p)
    ∧ (∀ p : Nat, wf_ptr p →
      (Ctor.mk_nanbox (.struct p)).get_struct_unchecked = p
      ∧ (Ctor.mk_portable (.struct p)).get_raw_struct_unchecked = p)
    ∧ (∀ p : Nat, wf_ptr p →
      (Ctor.mk_nanbox (.user_data p)).get_user_data_unchecked = p
      ∧ (Ctor.mk_portable (.user_data p)).get_raw_user_data_unchecked = p) := by
  refine ⟨fun b => ⟨by cases b <;> decide, by cases b <;> rfl⟩,
    fun bits => ⟨rfl, rfl⟩, ?_, ?_, ?_, ?_⟩ <;>
    exact fun p hw =>
      ⟨nanbox.object_pointer_new_object_nan (by decide) hw.2.2 hw.2.1, rfl⟩

/-- On two calls of the same constructor other than `new_user_data`, the
two encodings agree on equality. -/
theorem eq_agree_same_ctor (heapStr : Nat → String)
    (heapList : Nat → ListContents) (heapDict : Nat → DictContents) :
    (nanbox.ValueImpl.eq heapStr (Ctor.mk_nanbox .nil) (Ctor.mk_nanbox .nil)
      = portable.ValueImpl.eq heapStr heapList heapDict
        (Ctor.mk_portable .nil) (Ctor.mk_portable .nil))
    ∧ (∀ b1 b2 : Bool,
      nanbox.ValueImpl.eq heapStr (Ctor.mk_nanbox (.boolean b1))
          (Ctor.mk_nanbox (.boolean b2))
        = portable.ValueImpl.eq heapStr heapList heapDict
          (Ctor.mk_portable (.boolean b1)) (Ctor.mk_portable (.boolean b2)))
    ∧ (∀ n1 n2 : Nat, (Ctor.number n1).wf → (Ctor.number n2).wf →
      nanbox.ValueImpl.eq heapStr (Ctor.mk_nanbox (.number n1))
          (Ctor.mk_nanbox (.number n2))
        = portable.ValueImpl.eq heapStr heapList heapDict
          (Ctor.mk_portable (.number n1)) (Ctor.mk_portable (.number n2)))
    ∧ (∀ p q : Nat, wf_ptr p → wf_ptr q →
      nanbox.ValueImpl.eq heapStr (Ctor.mk_nanbox (.string p))
          (Ctor.mk_nanbox (.string q))
        = portable.ValueImpl.eq heapStr heapList heapDict
          (Ctor.mk_portable (.string p)) (Ctor.mk_portable (.string q)))
    ∧ (∀ p q : Nat, wf_ptr p → wf_ptr q →
      nanbox.ValueImpl.eq heapStr (Ctor.mk_nanbox (.function p))
          (Ctor.mk_nanbox (.function q))
        = portable.ValueImpl.eq heapStr heapList heapDict
          (Ctor.mk_portable (.function p)) (Ctor.mk_portable (.function q)))
    ∧ (∀ p q : Nat, wf_ptr p → wf_ptr q →
      nanbox.ValueImpl.eq heapStr (Ctor.mk_nanbox (.struct p))
          (Ctor.mk_nanbox (.struct q))
        = portable.ValueImpl.eq heapStr heapList heapDict
          (Ctor.mk_portable (.struct p)) (Ctor.mk_portable (.struct q))) := by
  have hobj : ∀ tag p q : Nat, tag < 8 → tag ≠ nanbox.OBJECT_STRING →
      wf_ptr p → wf_ptr q →
      nanbox.ValueImpl.eq heapStr (nanbox.new_object_nan tag p)
        (nanbox.new_object_nan tag q) = (p == q) := by
    intro tag p q ht hts hp hq
    by_cases hpq : p = q
    · subst hpq
      simp only [beq_self_eq_true]
      exact (nanbox.eq_object_same_tag_iff heapStr ht hts hp hq).mpr rfl
    · have hne : nanbox.ValueImpl.eq heapStr (nanbox.new_object_nan tag p)
          (nanbox.new_object_nan tag q) ≠ true := fun hh =>
        hpq ((nanbox.eq_object_same_tag_iff heapStr ht hts hp hq).mp hh)
      simp only [Bool.not_eq_true] at hne
      rw [hne, eq_comm]
      simp [hpq]
  refine ⟨rfl, ?_, ?_, ?_, ?_, ?_⟩
  · intro b1 b2
    cases b1 <;> cases b2 <;> rfl
  · intro n1 n2 h1 h2
    show nanbox.ValueImpl.eq heapStr ⟨n1⟩ ⟨n2⟩ = _
    rw [nanbox.eq_of_numbers heapStr h1.2 h2.2]
    rfl
  · intro p q hp hq
    show nanbox.ValueImpl.eq heapStr
      (nanbox.new_string p) (nanbox.new_string q) = _
    rw [nanbox.eq_string_contents heapStr hp hq]
    rfl
  · intro p q hp hq
    show nanbox.ValueImpl.eq heapStr
      (nanbox.new_object_nan nanbox.OBJECT_FUNCTION p)
      (nanbox.new_object_nan nanbox.OBJECT_FUNCTION q) = _
    rw [hobj nanbox.OBJECT_FUNCTION p q (by decide) (by decide) hp hq]
    rfl
  · intro p q hp hq
    show nanbox.ValueImpl.eq heapStr
      (nanbox.new_object_nan nanbox.OBJECT_STRUCT p)
      (nanbox.new_object_nan nanbox.OBJECT_STRUCT q) = _
    rw [hobj nanbox.OBJECT_STRUCT p q (by decide) (by decide) hp hq]
    rfl

/-- On two constructor calls of different kinds, both encodings agree that
the values are unequal. -/
theorem eq_agree_cross_kind (heapStr : Nat → String)
    (heapList : Nat → ListContents) (heapDict : Nat → DictContents)
    (c1 c2 : Ctor) (h1 : c1.wf) (h2 : c2.wf)
    (hk : (c1.mk_portable).kind ≠ (c2.mk_portable).kind) :
    nanbox.ValueImpl.eq heapStr c1.mk_nanbox c2.mk_nanbox = false
    ∧ portable.ValueImpl.eq heapStr heapList heapDict
        c1.mk_portable c2.mk_portable = false := by
  constructor
  · refine nanbox.eq_false_of_kind_ne heapStr _ _ ?_
    rw [kind_agree c1 h1, kind_agree c2 h2]
    exact hk
  · rcases c1 with _ | b1 | n1 | p1 | p1 | p1 | p1 <;>
      rcases c2 with _ | b2 | n2 | p2 | p2 | p2 | p2 <;>
      (try cases b1) <;> (try cases b2) <;>
      simp_all [Ctor.mk_portable, portable.new_nil, portable.new_boolean,
        portable.new_number, portable.new_string, portable.new_function,
        portable.new_struct, portable.new_user_data, portable.ValueImpl.kind,
        portable.ValueImpl.eq, portable.ValueImpl.discriminant]

/-! ### The two encodings on user-data values (C6) -/

/-- C6: the two encodings are not observationally equivalent on user-data.
Two `UserData` values with distinct heap addresses (8 and 16) fall through
to the `mem::discriminant` comparison in the portable `PartialEq` — so
they compare equal — while the NaN-boxed `PartialEq` compares the raw
tagged words — so they compare unequal. -/
theorem encodings_disagree_on_user_data :
    portable.ValueImpl.eq (fun _ => "") (fun _ => []) (fun _ => [])
      (Ctor.mk_portable (.user_data 8)) (Ctor.mk_portable (.user_data 16)) = true
    ∧ nanbox.ValueImpl.eq (fun _ => "")
      (Ctor.mk_nanbox (.user_data 8)) (Ctor.mk_nanbox (.user_data 16)) = false
    ∧ (8 : Nat) ≠ 16 := by
  refine ⟨rfl, by rfl, by norm_num⟩

/-! ### Truthiness (`value.rs`, C10) -/

/-- C10: `is_truthy` is false exactly on `Nil` and `False`, and `is_falsy`
is its exact negation; in particular every number (including `0.0` and
NaN), the empty string, and every function value are truthy. -/
theorem is_truthy_spec :
    (∀ v : Value, Value.is_truthy v = false ↔ (v = .Nil ∨ v = .False))
    ∧ (∀ v : Value, Value.is_falsy v = !v.is_truthy)
    ∧ (∀ bits : Nat, Value.is_truthy (.Number bits) = true)
    ∧ Value.is_truthy (.String "") = true
    ∧ (∀ h : Nat, Value.is_truthy (.Function h) = true) := by
  refine ⟨?_, fun v => rfl, fun bits => rfl, rfl, fun h => rfl⟩
  intro v
  cases v <;> simp [Value.is_truthy]

/-! ### Upvalues (`value.rs`, C3) -/

/-- C3: an upvalue over a stack slot holding `v` reads `v` while open, and
still reads `v` after `close` (the value moves into the upvalue's own
inline storage rather than being lost); and a `set w` through the upvalue
— performed while open, while closed, or while open and then followed by
`close` — is observed by every subsequent `get` through that same
upvalue. -/
theorem upvalue_get_set_close (s : Nat) (stack : Nat → Value) (v w : Value)
    (h : stack s = v) :
    (Upvalue.new s).get stack = v
    ∧ (((Upvalue.new s).close stack).1.get ((Upvalue.new s).close stack).2 = v)
    ∧ (((Upvalue.new s).set stack w).1.get ((Upvalue.new s).set stack w).2 = w)
    ∧ ((((Upvalue.new s).set stack w).1.close ((Upvalue.new s).set stack w).2).1.get
        (((Upvalue.new s).set stack w).1.close ((Upvalue.new s).set stack w).2).2 = w)
    ∧ ((((Upvalue.new s).close stack).1.set ((Upvalue.new s).close stack).2 w).1.get
        (((Upvalue.new s).close stack).1.set ((Upvalue.new s).close stack).2 w).2 = w) := by
  refine ⟨?_, ?_, ?_, ?_, ?_⟩ <;>
    simp [Upvalue.new, Upvalue.get, Upvalue.set, Upvalue.close, h]

/-- Witness for C3: an upvalue over slot 0 of a stack of `Nil`s reads
`Nil` while open and after closing, and a `set True` is observed. -/
theorem upvalue_get_set_close_witness :
    (Upvalue.new 0).get (fun _ => Value.Nil) = Value.Nil
    ∧ (((Upvalue.new 0).close (fun _ => Value.Nil)).1.get
        ((Upvalue.new 0).close (fun _ => Value.Nil)).2 = Value.Nil)
    ∧ (((Upvalue.new 0).set (fun _ => Value.Nil) Value.True).1.get
        ((Upvalue.new 0).set (fun _ => Value.Nil) Value.True).2 = Value.True) := by
  have h := upvalue_get_set_close 0 (fun _ => Value.Nil) Value.Nil Value.True rfl
  exact ⟨h.1, h.2.1, h.2.2.1⟩

/-! ### Code generation (C1, C2, C7, C9) -/

namespace codegen

/-- C1: variable lookup, evaluated at the failing input.  In a parent
function, `a` occupies slot 0 and `b` slot 1.  A lookup of `b` from a
deeper scope of the same function resolves to `Local 1`, the slot it was
created at.  A lookup of `b` from a nested function resolves to
`Upvalue 0` (the freshly assigned upvalue index) but inserts that index —
`0` — into the nested function's `captured_locals`, which therefore does
not contain the parent's stack slot `1` of `b`. -/
theorem lookup_records_upvalue_index_not_parent_slot :
    ∃ parent1 parent2 child',
      (Locals.default.push_scope).create_local "a" .Allocate
        = .ok (.Local 0, parent1)
      ∧ parent1.create_local "b" .Allocate = .ok (.Local 1, parent2)
      ∧ (parent2.push_scope).lookup "b"
        = .ok (some (.Local 1), parent2.push_scope)
      ∧ (Locals.mk (some parent2) [Scope.default] 0 0 [] [] []).lookup "b"
        = .ok (some (.Upvalue 0), child')
      ∧ child'.captured_locals = [0]
      ∧ ¬((1 : Nat) ∈ child'.captured_locals) := by
  refine ⟨_, _, _, rfl, rfl, rfl, rfl, rfl, by decide⟩

/-- C2: transitive capture is unimplemented.  With `x` at slot 0 of a
grandparent function, a lookup of `x` from a function nested two levels
below finds `Upvalue` at the intermediate level and hits `todo!()` — the
lookup aborts instead of succeeding with an `Upvalue` place. -/
theorem lookup_through_two_levels_panics :
    ∃ grandparent,
      (Locals.default.push_scope).create_local "x" .Allocate
        = .ok (.Local 0, grandparent)
      ∧ (Locals.mk
          (some (Locals.mk (some grandparent) [Scope.default] 0 0 [] [] []))
          [Scope.default] 0 0 [] [] []).lookup "x" = .panicked := by
  exact ⟨_, rfl, rfl⟩

/-- C9: `NodeKind::Return` is unimplemented in the code generator: at
every generator state, generating a node of kind `Return` aborts
(`todo!("return is NYI")`), producing neither a chunk nor a compile error,
and so does `generate` on such a root node. -/
theorem generate_return_panics (g : CodeGenerator) (node : Node)
    (h : node.kind = NodeKind.Return) :
    CodeGenerator.generate_node g node = .panicked
    ∧ CodeGenerator.generate g node = .panicked := by
  have h1 : CodeGenerator.generate_node g node = .panicked := by
    rw [CodeGenerator.generate_node, h]
  refine ⟨h1, ?_⟩
  rw [CodeGenerator.generate, h1]

/-! #### Chunk push/patch facts -/

theorem Chunk.len_patch (c : Chunk) (i : Nat) (op : Opcode) :
    (c.patch i op).len = c.len := by
  simp [Chunk.patch, Chunk.len]

theorem Chunk.code_patch_self {c : Chunk} {i : Nat} (op : Opcode) (h : i < c.len) :
    (c.patch i op).code[i]? = some op := by
  simp only [Chunk.patch]
  exact List.getElem?_set_self h

theorem Chunk.code_patch_ne {c : Chunk} {i j : Nat} (op : Opcode) (h : i ≠ j) :
    (c.patch i op).code[j]? = c.code[j]? := by
  simp only [Chunk.patch]
  exact List.getElem?_set_ne h

theorem Chunk.len_push (c : Chunk) (op : Opcode) :
    ((c.push op).1).len = c.len + 1 := by
  simp [Chunk.push, Chunk.len]

theorem Chunk.code_push_new (c : Chunk) (op : Opcode) :
    ((c.push op).1).code[c.len]? = some op := by
  simp only [Chunk.push, Chunk.len]
  rw [List.getElem?_append_right (le_refl _)]
  simp

theorem Chunk.code_push_old {c : Chunk} (op : Opcode) {j : Nat} (h : j < c.len) :
    ((c.push op).1).code[j]? = c.code[j]? := by
  simp only [Chunk.push, Chunk.len] at *
  exact List.getElem?_append_left h

/-- The backpatching loop, characterized pointwise: when every recorded
offset is inside the chunk and the chunk is small enough for every jump to
fit, the loop succeeds, preserves the chunk length, rewrites each recorded
offset to the forward jump targeting `c.len`, and leaves every other
offset alone. -/
theorem patch_forward_jumps_spec (breaks : List Nat) (c : Chunk)
    (hin : ∀ j ∈ breaks, j < c.len) (hfit : c.len < 2 ^ 24) :
    ∃ c', patch_forward_jumps c breaks = some c'
      ∧ c'.len = c.len
      ∧ (∀ j ∈ breaks, c'.code[j]? = some (Opcode.JumpForward (c.len - j)))
      ∧ (∀ i, i ∉ breaks → c'.code[i]? = c.code[i]?) := by
  induction breaks generalizing c with
  | nil => exact ⟨c, rfl, rfl, by simp, fun i _ => rfl⟩
  | cons j rest ih =>
    have hj : j < c.len := hin j (by simp)
    have hjf : Opcode.jump_forward j c.len = some (.JumpForward (c.len - j)) := by
      unfold Opcode.jump_forward
      rw [if_pos (by omega)]
    have hin' : ∀ x ∈ rest, x < (c.patch j (.JumpForward (c.len - j))).len := by
      rw [Chunk.len_patch]
      exact fun x hx => hin x (by simp [hx])
    obtain ⟨c', h1, h2, h3, h4⟩ := ih (c.patch j (.JumpForward (c.len - j))) hin'
      (by rw [Chunk.len_patch]; exact hfit)
    rw [Chunk.len_patch] at h2
    refine ⟨c', ?_, h2, ?_, ?_⟩
    · unfold patch_forward_jumps
      rw [hjf]
      exact h1
    · intro x hx
      rcases List.mem_cons.mp hx with hxe | hxr
      · subst hxe
        by_cases hxr2 : x ∈ rest
        · have hx3 := h3 x hxr2
          rwa [Chunk.len_patch] at hx3
        · rw [h4 x hxr2, Chunk.code_patch_self _ hj]
      · have hx3 := h3 x hxr
        rwa [Chunk.len_patch] at hx3
    · intro i hi
      have hij : j ≠ i := fun he => hi (he ▸ List.mem_cons_self j rest)
      rw [h4 i (fun hir => hi (List.mem_cons_of_mem j hir)),
        Chunk.code_patch_ne _ hij]

/-- C7: (a) compiling `break expr` emits the code for `expr` followed by a
reserved `Nop` registered as a break of the innermost breakable block, and
produces `BreakOutsideOfLoop` exactly when no breakable block is open;
(b) when the innermost breakable block is popped, if at least one break
was recorded, the block's start-marker `Nop` is patched to
`EnterBreakableBlock`, an `ExitBreakableBlock(1)` is appended at the old
end of the chunk, and every recorded break offset `j` is patched to a
forward jump of distance `len - j`, i.e. targeting that exit; if no break
was recorded, the chunk is left untouched. -/
theorem break_and_breakable_blocks :
    (∀ (g : CodeGenerator) (e : Node) (g' : CodeGenerator),
      CodeGenerator.generate_node g e = .ok g' →
      (g'.breakable_blocks = [] →
        CodeGenerator.generate_break g (Node.mk .Break none none [e] [])
          = .err .BreakOutsideOfLoop)
      ∧ (∀ block rest, g'.breakable_blocks = block :: rest →
        CodeGenerator.generate_break g (Node.mk .Break none none [e] [])
          = .ok { g' with
              chunk := (g'.chunk.push .Nop).1,
              breakable_blocks :=
                { block with breaks := block.breaks ++ [g'.chunk.len] } :: rest }))
    ∧ (∀ (g : CodeGenerator) (block : BreakableBlock) (rest : List BreakableBlock),
      g.breakable_blocks = block :: rest →
      (block.breaks = [] → CodeGenerator.pop_breakable_block g
        = .ok { g with breakable_blocks := rest })
      ∧ (block.breaks ≠ [] →
        (∀ j ∈ block.breaks, j < g.chunk.len) → block.start < g.chunk.len →
        block.start ∉ block.breaks → g.chunk.len < 2 ^ 24 →
        ∃ g', CodeGenerator.pop_breakable_block g = .ok g'
          ∧ g'.breakable_blocks = rest
          ∧ g'.chunk.len = g.chunk.len + 1
          ∧ g'.chunk.code[g.chunk.len]? = some (.ExitBreakableBlock 1)
          ∧ g'.chunk.code[block.start]? = some .EnterBreakableBlock
          ∧ ∀ j ∈ block.breaks,
              g'.chunk.code[j]? = some (.JumpForward (g.chunk.len - j)))) := by
  constructor
  · intro g e g' h
    have hgen : CodeGenerator.generate_break g (Node.mk .Break none none [e] [])
        = (match g'.breakable_blocks with
           | block :: rest =>
             .ok { (g'.push_op .Nop).1 with breakable_blocks :=
               { block with breaks := block.breaks ++ [(g'.push_op .Nop).2] } :: rest }
           | [] => .err .BreakOutsideOfLoop) := by
      rw [CodeGenerator.generate_break, h]
      rfl
    constructor
    · intro hempty
      rw [hgen, hempty]
    · intro block rest hblocks
      rw [hgen, hblocks]
      rfl
  · intro g block rest hblocks
    constructor
    · intro hempty
      unfold CodeGenerator.pop_breakable_block
      rw [hblocks]
      simp [hempty]
    · intro hne hin hstart hstartmem hfit
      have hin' : ∀ j ∈ block.breaks,
          j < (g.chunk.patch block.start .EnterBreakableBlock).len := by
        rw [Chunk.len_patch]
        exact hin
      obtain ⟨c', h1, h2, h3, h4⟩ :=
        patch_forward_jumps_spec block.breaks
          (g.chunk.patch block.start .EnterBreakableBlock) hin'
          (by rw [Chunk.len_patch]; exact hfit)
      rw [Chunk.len_patch] at h2
      refine ⟨{ g with chunk := (c'.push (.ExitBreakableBlock 1)).1, breakable_blocks := rest }, ?_, rfl, ?_, ?_, ?_, ?_⟩
      · unfold CodeGenerator.pop_breakable_block
        rw [hblocks]
        simp only [List.isEmpty_eq_true]
        rw [if_neg hne, h1]
      · rw [Chunk.len_push, h2]
      · rw [show g.chunk.len = c'.len from h2.symm, Chunk.code_push_new]
      · rw [Chunk.code_push_old _ (by rw [h2]; exact hstart),
          h4 block.start hstartmem,
          Chunk.code_patch_self _ hstart]
      · intro j hj
        have hx3 := h3 j hj
        rw [Chunk.len_patch] at hx3
        rw [Chunk.code_push_old _ (by rw [h2]; exact hin j hj), hx3]

/-- Witness for C7: (a) from a fresh generator, `break nil` with no open
block is a `BreakOutsideOfLoop` error, and with one open block it
registers the reserved `Nop`; (b) popping a block with one recorded break
from a three-instruction chunk patches the start marker, appends the exit,
and patches the break to a forward jump of distance 1 targeting it. -/
theorem break_and_breakable_blocks_witness :
    (CodeGenerator.generate_break (CodeGenerator.new Environment.new)
      (Node.mk .Break none none [Node.mk .Nil none none [] []] [])
      = .err .BreakOutsideOfLoop)
    ∧ (∃ g', CodeGenerator.pop_breakable_block
        { env := Environment.new,
          chunk := ⟨[.Nop, .PushNil, .Nop], 0⟩,
          locals := Locals.default,
          breakable_blocks := [⟨[2], 0⟩] } = .ok g'
      ∧ g'.breakable_blocks = []
      ∧ g'.chunk.len = 4
      ∧ g'.chunk.code[3]? = some (.ExitBreakableBlock 1)
      ∧ g'.chunk.code[0]? = some .EnterBreakableBlock
      ∧ ∀ j ∈ [2], g'.chunk.code[j]? = some (Opcode.JumpForward (3 - j))) := by
  constructor
  · exact (break_and_breakable_blocks.1 (CodeGenerator.new Environment.new)
      (Node.mk .Nil none none [] [])
      ((CodeGenerator.new Environment.new).generate_nil)
      (by rw [CodeGenerator.generate_node]; rfl)).1 rfl
  · exact (break_and_breakable_blocks.2
      { env := Environment.new,
        chunk := ⟨[.Nop, .PushNil, .Nop], 0⟩,
        locals := Locals.default,
        breakable_blocks := [⟨[2], 0⟩] } ⟨[2], 0⟩ [] rfl).2
      (by simp) (by decide) (by decide) (by decide) (by decide)

/-- Witness for C9: generating the bare `return` node from a fresh
generator aborts. -/
theorem generate_return_panics_witness :
    (Node.mk NodeKind.Return none none [] []).kind = NodeKind.Return
    ∧ CodeGenerator.generate_node (CodeGenerator.new Environment.new)
        (Node.mk NodeKind.Return none none [] []) = .panicked := by
  exact ⟨rfl, (generate_return_panics (CodeGenerator.new Environment.new)
    (Node.mk NodeKind.Return none none [] []) rfl).1⟩

end codegen

/-! ### The engine's method-call arity check (C8) -/

namespace engine

/-- The element found by `findIdx?` sits at the returned index and
satisfies the predicate. -/
theorem findIdx?_found {α : Type} {p : α → Bool} {l : List α} {i : Nat}
    (h : l.findIdx? p = some i) : ∃ x, l[i]? = some x ∧ p x = true := by
  obtain ⟨hlt, hp, _⟩ := List.findIdx?_eq_some_iff_getElem.mp h
  exact ⟨l[i], List.getElem?_eq_getElem hlt, hp⟩

/-- Interning `(name, a)` always yields a method id whose stored signature
is the requested one, with receiver-inclusive arity `a + 1`. -/
theorem to_method_id_signature (env : codegen.Environment) (name : String)
    (a : Nat) (hm : env.method_signatures.length < 2 ^ 16) :
    ∃ method_id env', to_method_id env name a = .ok (method_id, env')
      ∧ env'.get_method_signature method_id
        = some ⟨name, some (a + 1), none⟩ := by
  unfold to_method_id codegen.Environment.get_or_create_method_index
  cases hidx : env.method_signatures.findIdx?
      (fun s => s == (⟨name, some (a + 1), none⟩ : codegen.MethodSignature)) with
  | some i =>
    obtain ⟨x, hget, hp⟩ := findIdx?_found hidx
    refine ⟨i, env, by rfl, ?_⟩
    unfold codegen.Environment.get_method_signature
    rw [List.get?_eq_getElem?, hget, beq_iff_eq.mp hp]
  | none =>
    refine ⟨env.method_signatures.length, _, by rw [if_pos hm], ?_⟩
    unfold codegen.Environment.get_method_signature
    simp only [List.get?_eq_getElem?]
    rw [List.getElem?_append_right (le_refl _)]
    simp

/-- C8 (amended): for every receiver, method name, declared arity
`a ≤ 255` and `k` argument values, when the receiver-inclusive count
`k + 1` fits in a `u8` (`k ≤ 254`), `call_method` with `k ≠ a` returns
`ArgumentCount { expected := a, got := k }` before reaching any dispatch,
and with `k = a` the arity check passes and the call proceeds to the
synthetic dispatch chunk; when `k ≥ 255` the `u8` conversion of the stack
size fails first, so the call returns `TooManyArguments` instead. -/
theorem call_method_arity_check (env : codegen.Environment)
    (receiver : RawValue) (name : String) (a : Nat)
    (arguments : List RawValue)
    (hm : env.method_signatures.length < 2 ^ 16) :
    (arguments.length ≤ 254 → arguments.length ≠ a →
      Engine.call_method env receiver name a arguments
        = .err (.ArgumentCount a arguments.length))
    ∧ (arguments.length ≤ 254 → arguments.length = a →
      ∃ env' method_id, Engine.call_method env receiver name a arguments
        = .ok (env', [.CallMethod method_id (arguments.length + 1), .Halt]))
    ∧ (255 ≤ arguments.length →
      Engine.call_method env receiver name a arguments
        = .err .TooManyArguments) := by
  obtain ⟨method_id, env', hmid, hsig⟩ := to_method_id_signature env name a hm
  unfold Engine.call_method
  rw [hmid]
  dsimp only
  rw [hsig]
  dsimp only
  refine ⟨?_, ?_, ?_⟩
  · intro hk hne
    rw [if_pos (by simp; omega)]
    rw [if_pos (by simp; omega)]
    simp
  · intro hk heq
    refine ⟨env', method_id, ?_⟩
    rw [if_pos (by simp; omega)]
    rw [if_neg (by simp; omega)]
    simp
  · intro hk
    rw [if_neg (by simp; omega)]

set_option maxRecDepth 4000 in
/-- Counterexample to C8 as stated: with declared arity `a = 0` and
`k = 255` argument values (`k ≠ a`), `call_method` does not return
`ArgumentCount { expected := 0, got := 255 }` — the receiver-inclusive
count 256 no longer fits in a `u8`, so it fails earlier with
`TooManyArguments`. -/
theorem call_method_overflow_not_argument_count :
    Engine.call_method codegen.Environment.new 0 "m" 0 (List.replicate 255 0)
      = .err .TooManyArguments
    ∧ Engine.call_method codegen.Environment.new 0 "m" 0 (List.replicate 255 0)
      ≠ .err (.ArgumentCount 0 255)
    ∧ (255 : Nat) ≠ 0 := by
  refine ⟨rfl, ?_, by norm_num⟩
  intro h
  rw [show Engine.call_method codegen.Environment.new 0 "m" 0
      (List.replicate 255 0) = .err .TooManyArguments from rfl] at h
  simp at h

set_option maxRecDepth 4000 in
/-- Witness for C8 (amended): against a fresh environment, calling `m`
declared with arity 2 — with 1 argument yields
`ArgumentCount { expected := 2, got := 1 }`, with 2 arguments the check
passes and the dispatch chunk is produced, and with 255 arguments the
`u8` conversion fails with `TooManyArguments`. -/
theorem call_method_arity_check_witness :
    Engine.call_method codegen.Environment.new 0 "m" 2 [7]
      = .err (.ArgumentCount 2 1)
    ∧ (∃ env' method_id,
      Engine.call_method codegen.Environment.new 0 "m" 2 [7, 8]
        = .ok (env', [.CallMethod method_id 3, .Halt]))
    ∧ Engine.call_method codegen.Environment.new 0 "m" 2 (List.replicate 255 0)
      = .err .TooManyArguments := by
  refine ⟨?_, ?_, ?_⟩
  · exact (call_method_arity_check codegen.Environment.new 0 "m" 2 [7]
      (by decide)).1 (by norm_num) (by norm_num)
  · exact (call_method_arity_check codegen.Environment.new 0 "m" 2 [7, 8]
      (by decide)).2.1 (by norm_num) (by norm_num)
  · exact (call_method_arity_check codegen.Environment.new 0 "m" 2
      (List.replicate 255 0)
      (by decide)).2.2 (by simp [List.length_replicate])

end engine

end Mica
